import Mathlib

/-!
Device registry, message handlers and command dispatch of xiaozhi-esp32.

A shallow embedding of the server-side JavaScript of the repository:

* `fota_server_next/server/mqtt.js`   : the `mqttClient.on('message')` handler with auto-discovery,
* `fota_server/backend/server.js`     : the legacy `mqttClient.on('message')` handler,
* `fota_server_next/server/index.js` and `fota_server/backend/server.js` :
  the `POST /api/fota/trigger` route,
* `quiz_server/db_manager.js`         : `linkDevice` and `removeDevice`.

Modelling conventions.

* A JavaScript string is a finite sequence of UTF-16 code units (`JsString`).
* The SQLite table `devices` is the list of its rows in rowid order; a statement is a pure
  function on that list.  The engine is taken to execute every statement it is given; the only
  failures modelled are the ones the schema itself produces (the `UNIQUE` constraint on `mac`)
  and the `getDB()` guard.  Row ids are unbounded naturals.
* `CURRENT_TIMESTAMP` and `Date.now()` are read from the environment, so every operation takes
  the instants it observes as arguments.
* `io.emit` and `mqttClient.publish` append to a log that is part of the result.
-/

namespace Xiaozhi

/-! ## JavaScript strings -/

/-- One UTF-16 code unit. -/
abbrev CodeUnit := Fin 65536

/-- A JavaScript string: the sequence of its UTF-16 code units. -/
abbrev JsString := List CodeUnit

/-- UTF-16 encoding of one Unicode scalar value. -/
def utf16 (c : Char) : List CodeUnit :=
  if c.toNat < 65536 then [Fin.ofNat c.toNat]
  else [Fin.ofNat (55296 + (c.toNat - 65536) / 1024), Fin.ofNat (56320 + (c.toNat - 65536) % 1024)]

/-- The JavaScript string denoted by a string literal. -/
def js (s : String) : JsString := s.toList.flatMap utf16

/-- The code unit of the solidus, the separator used by `topic.split('/')`. -/
def slash : CodeUnit := 47

/-- `s.split(sep)` for a separator of one code unit: the maximal runs between occurrences of
the separator; the empty string splits into one empty segment. -/
def split (sep : CodeUnit) : JsString → List JsString
  | [] => [[]]
  | c :: cs =>
    if c = sep then [] :: split sep cs
    else
      match split sep cs with
      | [] => [[c]]
      | p :: ps => (c :: p) :: ps

/-- `s.slice(start)` (`String.prototype.slice` with one argument): a negative `start` counts
from the end and is clamped at 0, a non-negative one is clamped at the length. -/
def slice (s : JsString) (start : Int) : JsString :=
  let len : Int := s.length
  let src : Int := if start < 0 then max (len + start) 0 else min start len
  s.drop src.toNat

/-- JavaScript truthiness of a value that is either `undefined` (`none`) or a string:
`undefined` and the empty string are falsy, every other string is truthy. -/
def truthy : Option JsString → Bool
  | none => false
  | some s => !s.isEmpty

/-- The last `n` code units of `s` (all of `s` when it has fewer than `n`), stated directly
on the sequence. -/
def lastUnits (n : Nat) (s : JsString) : JsString := (s.reverse.take n).reverse

/-! ## The `devices` table -/

/-- One row of the table `devices`
(`id INTEGER PRIMARY KEY AUTOINCREMENT, mac TEXT UNIQUE NOT NULL, name TEXT,
status TEXT DEFAULT 'offline', last_seen DATETIME, current_version TEXT`).
A nullable column is an `Option`. -/
structure DeviceRow where
  id : Nat
  mac : JsString
  name : Option JsString
  status : Option JsString
  last_seen : Option Nat
  current_version : Option JsString
  deriving DecidableEq, Repr

/-- The database as far as the handlers use it: the rows of `devices` in rowid order and the
`AUTOINCREMENT` high-water mark kept in `sqlite_sequence`. -/
structure DB where
  devices : List DeviceRow
  seq : Nat
  deriving DecidableEq, Repr

/-- Errors that can arise inside a handler body. -/
inductive JsError where
  | dbNotInitialized
  | sqliteConstraint
  | typeError
  | ownedByAnother
  | noSuchKey
  | putRejected
  deriving DecidableEq, Repr

deriving instance DecidableEq for Except

/-- `getDB()` of `db.js`: throws when the database has not been opened. -/
def getDB (db? : Option DB) : Except JsError DB :=
  match db? with
  | none => .error .dbNotInitialized
  | some db => .ok db

/-- `db.get('SELECT * FROM devices WHERE mac = ?', [mac])`: the first matching row, or
`undefined`. -/
def selectByMac (db : DB) (mac : JsString) : Option DeviceRow :=
  db.devices.find? (fun r => r.mac = mac)

/-- `db.get('SELECT id FROM devices WHERE mac = ?', [mac])`. -/
def selectIdByMac (db : DB) (mac : JsString) : Option Nat :=
  (selectByMac db mac).map (fun r => r.id)

/-- The rowid `AUTOINCREMENT` assigns next: one more than the largest rowid that is or ever
was in the table. -/
def nextRowid (db : DB) : Nat :=
  (db.devices.foldl (fun m r => max m r.id) db.seq) + 1

/-- A high surrogate, the first code unit of a surrogate pair. -/
def isHighSurrogate (c : CodeUnit) : Bool := 0xD800 ≤ c.val && c.val ≤ 0xDBFF

/-- A low surrogate, the second code unit of a surrogate pair. -/
def isLowSurrogate (c : CodeUnit) : Bool := 0xDC00 ≤ c.val && c.val ≤ 0xDFFF

/-- A JavaScript string after it has been written to a `TEXT` column and read back.  SQLite
holds text as UTF-8: a surrogate pair is kept, and a surrogate that stands without its partner
cannot be encoded and comes back as U+FFFD (the result of `String.prototype.toWellFormed`). -/
def toWellFormed : JsString → JsString
  | [] => []
  | [c] => if isHighSurrogate c || isLowSurrogate c then [0xFFFD] else [c]
  | c :: d :: rest =>
    if isHighSurrogate c then
      if isLowSurrogate d then c :: d :: toWellFormed rest
      else 0xFFFD :: toWellFormed (d :: rest)
    else if isLowSurrogate c then 0xFFFD :: toWellFormed (d :: rest)
    else c :: toWellFormed (d :: rest)

/-- `INSERT INTO devices (mac, name, status, last_seen) VALUES (?, ?, ?, CURRENT_TIMESTAMP)`.
The `UNIQUE` constraint on `mac` rejects a second row with the same `mac`;
`current_version` is left `NULL`.  The name is kept as SQLite returns it; `mac` and `status`
are a topic segment, which the MQTT client decoded from UTF-8, and a literal, and are kept as
they are. -/
def insertDevice (db : DB) (mac name status : JsString) (now : Nat) : Except JsError DB :=
  if db.devices.any (fun r => r.mac = mac) then .error .sqliteConstraint
  else
    let rid := nextRowid db
    .ok { devices := db.devices ++
            [{ id := rid, mac := mac, name := some (toWellFormed name),
               status := some status, last_seen := some now, current_version := none }],
          seq := rid }

/-- `UPDATE devices SET status = ?, last_seen = CURRENT_TIMESTAMP WHERE mac = ?`. -/
def updateStatus (db : DB) (status : JsString) (now : Nat) (mac : JsString) : DB :=
  { db with devices := db.devices.map (fun r =>
      if r.mac = mac then { r with status := some status, last_seen := some now } else r) }

/-- `UPDATE devices SET current_version = ? WHERE mac = ?`. -/
def updateVersion (db : DB) (version : JsString) (mac : JsString) : DB :=
  { db with devices := db.devices.map (fun r =>
      if r.mac = mac then { r with current_version := some version } else r) }

/-! ## Events pushed to the dashboard -/

/-- The payload of one `io.emit`. -/
inductive Payload where
  /-- The result of `SELECT * FROM devices WHERE mac = ?` (`undefined` when there is no row). -/
  | row (newDevice : Option DeviceRow)
  /-- The object `{ mac, status }`. -/
  | status (mac status : JsString)
  /-- The object `{ mac, current_version }`. -/
  | version (mac current_version : JsString)
  deriving DecidableEq, Repr

/-- One call `io.emit(name, payload)`. -/
structure Emitted where
  name : JsString
  payload : Payload
  deriving DecidableEq, Repr

/-- The call `io.emit('device_update', payload)`. -/
def deviceUpdate (p : Payload) : Emitted := { name := js "device_update", payload := p }

/-- What one handler invocation leaves behind: the database, the events emitted in order, and
the error raised inside the body, if any. -/
structure Outcome where
  db : Option DB
  events : List Emitted
  error : Option JsError
  deriving DecidableEq, Repr

/-! ## `fota_server_next/server/mqtt.js` -/

/-- The handler `mqttClient.on('message', async (topic, message) => ...)` of
`fota_server_next/server/mqtt.js`.  `msgStr` is `message.toString()`; `tIns` and `tUpd` are
the values of `CURRENT_TIMESTAMP` seen by the `INSERT` and by the `UPDATE`.  An error raised
in the `try` block is caught and logged, it is reported in `error`. -/
def onMessage (db? : Option DB) (tIns tUpd : Nat) (topic msgStr : JsString) : Outcome :=
  let parts := split slash topic
  if parts.length < 3 then { db := db?, events := [], error := none }
  else
    let mac := parts.getD 1 []
    let type := parts.getD 2 []
    match getDB db? with
    | .error e => { db := db?, events := [], error := some e }
    | .ok db =>
      -- Auto-discovery: check if device exists, if not insert it
      let discovered : Except JsError (DB × List Emitted) :=
        match selectIdByMac db mac with
        | some _ => .ok (db, [])
        | none =>
          match insertDevice db mac (js "Device-" ++ slice mac (-5)) (js "online") tIns with
          | .error e => .error e
          | .ok db1 => .ok (db1, [deviceUpdate (.row (selectByMac db1 mac))])
      match discovered with
      | .error e => { db := some db, events := [], error := some e }
      | .ok (db1, ev) =>
        if type = js "status" then
          { db := some (updateStatus db1 msgStr tUpd mac),
            events := ev ++ [deviceUpdate (.status mac msgStr)], error := none }
        else if type = js "version" then
          { db := some (updateVersion db1 msgStr mac),
            events := ev ++ [deviceUpdate (.version mac msgStr)], error := none }
        else { db := some db1, events := ev, error := none }

/-! ## `fota_server/backend/server.js` -/

/-- The handler `mqttClient.on('message', ...)` of `fota_server/backend/server.js`: no
auto-discovery and no `try`.  The module variable `db` is `undefined` until the database has
been opened, and `db.run` on it raises a `TypeError` that rejects the handler. -/
def legacyOnMessage (db? : Option DB) (tUpd : Nat) (topic msgStr : JsString) : Outcome :=
  let parts := split slash topic
  if parts.length < 3 then { db := db?, events := [], error := none }
  else
    let mac := parts.getD 1 []
    let type := parts.getD 2 []
    if type = js "status" then
      match db? with
      | none => { db := none, events := [], error := some .typeError }
      | some db =>
        { db := some (updateStatus db msgStr tUpd mac),
          events := [deviceUpdate (.status mac msgStr)], error := none }
    else if type = js "version" then
      match db? with
      | none => { db := none, events := [], error := some .typeError }
      | some db =>
        { db := some (updateVersion db msgStr mac),
          events := [deviceUpdate (.version mac msgStr)], error := none }
    else { db := db?, events := [], error := none }

/-! ## `POST /api/fota/trigger` -/

/-- The destructured request body `{ mac, url, assetsUrl }`; a field that is missing from the
body is `undefined` (`none`). -/
structure TriggerBody where
  mac : Option JsString
  url : Option JsString
  assetsUrl : Option JsString
  deriving DecidableEq, Repr

/-- The object handed to `JSON.stringify` to build a command payload, `{ type, url }`. -/
structure Command where
  type : JsString
  url : JsString
  deriving DecidableEq, Repr

/-- One call `mqttClient.publish(topic, payload)`. -/
structure Publish where
  topic : JsString
  payload : Command
  deriving DecidableEq, Repr

/-- One call `setTimeout(() => mqttClient.publish(topic, payload), delay)`, `delay` in
milliseconds from the moment of the call. -/
structure Timer where
  delay : Nat
  action : Publish
  deriving DecidableEq, Repr

/-- What the trigger route does with one request: the HTTP status and the JSON body of the
response, the publishes issued while the route runs, and the timers it registers. -/
structure TriggerResult where
  status : Nat
  error : Option JsString
  message : Option JsString
  published : List Publish
  timers : List Timer
  deriving DecidableEq, Repr

/-- The template literal `device/${mac}/command`. -/
def commandTopic (mac : JsString) : JsString := js "device/" ++ mac ++ js "/command"

/-- The body shared by the two trigger routes; they differ only in the text of the error. -/
def triggerWith (errorText : JsString) (body : TriggerBody) : TriggerResult :=
  if !truthy body.mac || (!truthy body.url && !truthy body.assetsUrl) then
    { status := 400, error := some errorText, message := none, published := [], timers := [] }
  else
    let mac := body.mac.getD []
    let published :=
      if truthy body.url then
        [{ topic := commandTopic mac,
           payload := { type := js "ota_url", url := body.url.getD [] } }]
      else []
    let timers :=
      if truthy body.assetsUrl then
        [{ delay := 500,
           action := { topic := commandTopic mac,
                       payload := { type := js "assets_url", url := body.assetsUrl.getD [] } } }]
      else []
    { status := 200, error := none, message := some (js "FOTA command(s) sent"),
      published := published, timers := timers }

/-- The route `POST /api/fota/trigger` of `fota_server_next/server/index.js`. -/
def trigger (body : TriggerBody) : TriggerResult :=
  triggerWith (js "Missing mac or at least one url") body

/-- The route `POST /api/fota/trigger` of `fota_server/backend/server.js`. -/
def legacyTrigger (body : TriggerBody) : TriggerResult :=
  triggerWith (js "Missing mac or at least one url (firmware or assets)") body

/-- The publishes caused by one trigger request in the order in which they are issued: a timer
callback runs only after the route has run to its end, so the publishes of the route come
first, followed by those of the timers in order of their delay (timers of equal delay in
the order of their registration). -/
def issueOrder (r : TriggerResult) : List Publish :=
  r.published ++ (r.timers.insertionSort (fun a b => a.delay ≤ b.delay)).map (fun t => t.action)

/-- The instants at which the publishes of a request handled at instant `t0` are issued, when
every timer fires exactly on time: the publishes of the route at `t0`, that of a timer at
`t0 + delay`. -/
def schedule (t0 : Nat) (r : TriggerResult) : List (Nat × Publish) :=
  r.published.map (fun p => (t0, p)) ++ r.timers.map (fun t => (t0 + t.delay, t.action))

/-! ## `quiz_server/db_manager.js` -/

/-- White space and line terminators of ECMAScript, the code units `trim` strips. -/
def isWhiteSpace (c : CodeUnit) : Bool :=
  c.val ∈ [9, 10, 11, 12, 13, 32, 160, 5760, 8232, 8233, 8239, 8287, 12288, 65279]
    || (8192 ≤ c.val && c.val ≤ 8202)

/-- `s.trim()`: white space removed from both ends. -/
def trim (s : JsString) : JsString :=
  ((s.dropWhile isWhiteSpace).reverse.dropWhile isWhiteSpace).reverse

/-- Lower-casing of the letters A to Z only; it agrees with `toLowerCase` on ASCII strings. -/
def asciiLower (s : JsString) : JsString :=
  s.map (fun c => if 65 ≤ c.val ∧ c.val ≤ 90 then c + 32 else c)

/-- One entry of `DEVICE_MAP_CACHE`.  An entry loaded from `device_map.json` may lack
`linkedAt`. -/
structure DeviceLink where
  deviceId : JsString
  ownerId : JsString
  name : JsString
  linkedAt : Option Nat
  deriving DecidableEq, Repr

/-- The state `DatabaseManager` works on: its `enabled` flag, the module variable
`DEVICE_MAP_CACHE`, and the `PutObjectCommand`s sent to the bucket so far (key and the data
serialised into the body), oldest first.  The bucket is taken to accept every put. -/
structure DatabaseManager where
  enabled : Bool
  DEVICE_MAP_CACHE : List DeviceLink
  puts : List (JsString × List DeviceLink)
  deriving DecidableEq, Repr

/-- `_saveJSON(key, data)`: nothing when storage is disabled, else one put. -/
def _saveJSON (st : DatabaseManager) (key : JsString) (data : List DeviceLink) :
    DatabaseManager :=
  if !st.enabled then st else { st with puts := st.puts ++ [(key, data)] }

/-- Assignment through the reference returned by `Array.prototype.find`: the first element
that satisfies `p` is replaced by its image under `f`. -/
def modifyFirst {α : Type} (p : α → Bool) (f : α → α) : List α → List α
  | [] => []
  | x :: xs => if p x then f x :: xs else x :: modifyFirst p f xs

/-- `deviceId.trim().toLowerCase()`.  `toLowerCase` is the case conversion of the JavaScript
runtime; it is an argument of every definition that calls it. -/
def normalize (toLowerCase : JsString → JsString) (deviceId : JsString) : JsString :=
  toLowerCase (trim deviceId)

/-- `linkDevice(userId, deviceId, name)`; `now` is the value of `Date.now()`.  The result is
the new state together with the returned id or the error thrown. -/
def linkDevice (toLowerCase : JsString → JsString) (st : DatabaseManager) (now : Nat)
    (userId deviceId : JsString) (name : Option JsString) :
    DatabaseManager × Except JsError JsString :=
  let normalizedId := normalize toLowerCase deviceId
  -- Check if already linked to SOMEONE ELSE
  let existing := st.DEVICE_MAP_CACHE.find? (fun d => d.deviceId = normalizedId)
  match existing with
  | some e =>
    if e.ownerId ≠ userId then (st, .error .ownedByAnother)
    else
      -- Update name
      let cache := modifyFirst (fun d => d.deviceId = normalizedId)
        (fun d => { d with name := if truthy name then name.getD [] else d.name })
        st.DEVICE_MAP_CACHE
      (_saveJSON { st with DEVICE_MAP_CACHE := cache } (js "device_map.json") cache,
        .ok normalizedId)
  | none =>
    -- Create new link
    let cache := st.DEVICE_MAP_CACHE ++
      [{ deviceId := normalizedId, ownerId := userId,
         name := if truthy name then name.getD [] else js "Device " ++ normalizedId,
         linkedAt := some now }]
    (_saveJSON { st with DEVICE_MAP_CACHE := cache } (js "device_map.json") cache,
      .ok normalizedId)

/-- `removeDevice(userId, deviceId)`: the new state and the returned boolean. -/
def removeDevice (toLowerCase : JsString → JsString) (st : DatabaseManager)
    (userId deviceId : JsString) : DatabaseManager × Bool :=
  let normalizedId := normalize toLowerCase deviceId
  let initialLen := st.DEVICE_MAP_CACHE.length
  let cache := st.DEVICE_MAP_CACHE.filter
    (fun d => !(d.deviceId = normalizedId && d.ownerId = userId))
  if cache.length ≠ initialLen then
    (_saveJSON { st with DEVICE_MAP_CACHE := cache } (js "device_map.json") cache, true)
  else ({ st with DEVICE_MAP_CACHE := cache }, false)

/-! ## Sequences of operations -/

/-- One inbound broker message together with the instants its handler observes. -/
structure Message where
  tIns : Nat
  tUpd : Nat
  topic : JsString
  msgStr : JsString
  deriving DecidableEq, Repr

/-- The database after the messages have been handled one after the other, each invocation
running to its end before the next begins. -/
def processAll (db? : Option DB) : List Message → Option DB
  | [] => db?
  | m :: ms => processAll (onMessage db? m.tIns m.tUpd m.topic m.msgStr).db ms

/-- One call of a registry-mutating method of `DatabaseManager`. -/
inductive Call where
  | link (now : Nat) (userId deviceId : JsString) (name : Option JsString)
  | remove (userId deviceId : JsString)
  deriving DecidableEq, Repr

/-- The state after the calls have been made one after the other. -/
def runCalls (toLowerCase : JsString → JsString) (st : DatabaseManager) :
    List Call → DatabaseManager
  | [] => st
  | .link now u d n :: cs => runCalls toLowerCase (linkDevice toLowerCase st now u d n).1 cs
  | .remove u d :: cs => runCalls toLowerCase (removeDevice toLowerCase st u d).1 cs

/-- No two rows of `devices` share a `mac`. -/
def UniqueMac (db : DB) : Prop := (db.devices.map (fun r => r.mac)).Nodup

/-- No two entries of `DEVICE_MAP_CACHE` share a `deviceId`. -/
def UniqueDeviceId (st : DatabaseManager) : Prop :=
  (st.DEVICE_MAP_CACHE.map (fun d => d.deviceId)).Nodup

/-- The row auto-discovery inserts for `mac` at instant `tIns`. -/
def discoveredRow (db : DB) (mac : JsString) (tIns : Nat) : DeviceRow :=
  { id := nextRowid db, mac := mac,
    name := some (toWellFormed (js "Device-" ++ slice mac (-5))),
    status := some (js "online"), last_seen := some tIns, current_version := none }

/-- The database right after auto-discovery has inserted the row for `mac`. -/
def discoveredDB (db : DB) (mac : JsString) (tIns : Nat) : DB :=
  { devices := db.devices ++ [discoveredRow db mac tIns], seq := nextRowid db }

/-- The value of a request field that is present: a field counts as present when it holds a
non-empty string; a missing field and the empty string give nothing. -/
def present (v : Option JsString) : List JsString :=
  match v with
  | none => []
  | some s => if s = [] then [] else [s]

/-! ## `POST /api/devices` of the two fota servers -/

/-- `INSERT INTO devices (mac, name, status) VALUES (?, ?, ?)`.  A parameter that is `undefined`
is bound as `NULL`; `mac` is `NOT NULL` and `UNIQUE`; `last_seen` and `current_version` are left
`NULL`. -/
def insertRegistered (db : DB) (mac name : Option JsString) (status : JsString) :
    Except JsError DB :=
  match mac with
  | none => .error .sqliteConstraint
  | some m =>
    if db.devices.any (fun r => r.mac = m) then .error .sqliteConstraint
    else
      let rid := nextRowid db
      .ok { devices := db.devices ++
              [{ id := rid, mac := m, name := name, status := some status,
                 last_seen := none, current_version := none }],
            seq := rid }

/-- The database and the HTTP status after one request to `POST /api/devices`. -/
structure RegisterResult where
  db : Option DB
  status : Nat
  deriving DecidableEq, Repr

/-- The route `POST /api/devices` with body `{ mac, name }`: the row is inserted with status
`offline`; every error raised in the `try` block is answered with 400. -/
def postDevices (db? : Option DB) (mac name : Option JsString) : RegisterResult :=
  match getDB db? with
  | .error _ => { db := db?, status := 400 }
  | .ok db =>
    match insertRegistered db mac name (js "offline") with
    | .error _ => { db := some db, status := 400 }
    | .ok db1 => { db := some db1, status := 200 }

/-! ## The topic routing at the head of the handlers -/

/-- The first lines of both message handlers: `parts = topic.split('/')`, the guard
`parts.length < 3`, then `mac = parts[1]` and `type = parts[2]`.  The result is `none` when the
handler returns at the guard. -/
def classify (topic : JsString) : Option (JsString × JsString) :=
  let parts := split slash topic
  if parts.length < 3 then none else some (parts.getD 1 [], parts.getD 2 [])

/-- The database after the legacy handler has handled the messages one after the other. -/
def legacyProcessAll (db? : Option DB) : List Message → Option DB
  | [] => db?
  | m :: ms => legacyProcessAll (legacyOnMessage db? m.tUpd m.topic m.msgStr).db ms

/-- The status of a row is one of `online` and `offline`. -/
def StatusOk (r : DeviceRow) : Prop :=
  r.status = some (js "online") ∨ r.status = some (js "offline")

/-- A message that, when its kind (segment 2) is `status`, carries the payload `online` or
`offline`. -/
def PayloadOk (m : Message) : Prop :=
  (split slash m.topic).getD 2 [] = js "status" →
    m.msgStr = js "online" ∨ m.msgStr = js "offline"

/-! ## The handler of fota_server_next, one `await` at a time -/

/-- The statement an invocation of the handler is about to `await`: the `SELECT id`, the
`INSERT`, the `SELECT *`, the `UPDATE`; `done` when the invocation has returned. -/
inductive Pc where
  | selectId
  | insert
  | selectRow
  | update
  | done
  deriving DecidableEq, Repr

/-- One invocation of the handler: its message and where it stands. -/
structure Task where
  msg : Message
  pc : Pc
  deriving DecidableEq, Repr

/-- What all invocations share: the database, the events emitted so far, and the errors
logged by the `catch` blocks so far. -/
structure Shared where
  db : Option DB
  events : List Emitted
  errors : List JsError
  deriving DecidableEq, Repr

/-- One step of one invocation: the statement it awaits is executed on the shared database,
and the invocation runs on to its next `await` (or to its end).  JavaScript runs the code
between two `await`s without interruption, so another invocation can only run between two
steps. -/
def stepTask (sh : Shared) (t : Task) : Shared × Task :=
  let parts := split slash t.msg.topic
  let mac := parts.getD 1 []
  let type := parts.getD 2 []
  let next : Pc := if type = js "status" ∨ type = js "version" then .update else .done
  match t.pc with
  | .selectId =>
    if parts.length < 3 then (sh, { t with pc := .done })
    else
      match getDB sh.db with
      | .error e => ({ sh with errors := sh.errors ++ [e] }, { t with pc := .done })
      | .ok db =>
        match selectIdByMac db mac with
        | some _ => (sh, { t with pc := next })
        | none => (sh, { t with pc := .insert })
  | .insert =>
    match sh.db with
    | none => (sh, { t with pc := .done })
    | some db =>
      match insertDevice db mac (js "Device-" ++ slice mac (-5)) (js "online") t.msg.tIns with
      | .error e => ({ sh with errors := sh.errors ++ [e] }, { t with pc := .done })
      | .ok db1 => ({ sh with db := some db1 }, { t with pc := .selectRow })
  | .selectRow =>
    match sh.db with
    | none => (sh, { t with pc := .done })
    | some db =>
      ({ sh with events := sh.events ++ [deviceUpdate (.row (selectByMac db mac))] },
        { t with pc := next })
  | .update =>
    match sh.db with
    | none => (sh, { t with pc := .done })
    | some db =>
      if type = js "status" then
        ({ sh with db := some (updateStatus db t.msg.msgStr t.msg.tUpd mac),
                   events := sh.events ++ [deviceUpdate (.status mac t.msg.msgStr)] },
          { t with pc := .done })
      else if type = js "version" then
        ({ sh with db := some (updateVersion db t.msg.msgStr mac),
                   events := sh.events ++ [deviceUpdate (.version mac t.msg.msgStr)] },
          { t with pc := .done })
      else (sh, { t with pc := .done })
  | .done => (sh, t)

/-- One invocation stepped `n` times with nothing in between. -/
def stepN : Nat → Shared × Task → Shared × Task
  | 0, x => x
  | n + 1, x => stepN n (stepTask x.1 x.2)

/-- Two invocations stepped according to a schedule: `true` steps the first one, `false` the
second. -/
def interleave (sh : Shared) (a b : Task) : List Bool → Shared × Task × Task
  | [] => (sh, a, b)
  | true :: sched => interleave (stepTask sh a).1 (stepTask sh a).2 b sched
  | false :: sched => interleave (stepTask sh b).1 a (stepTask sh b).2 sched

/-! ## `addHistory` of `quiz_server/db_manager.js` -/

/-- `_readJSON(key)` on a bucket that maps a key to the list stored under it: `null` when
storage is disabled, the parsed list when the object exists, and the error `NoSuchKey` thrown
on when it does not. -/
def _readJSON {σ : Type} (enabled : Bool) (bucket : JsString → Option (List σ))
    (key : JsString) : Except JsError (Option (List σ)) :=
  if !enabled then .ok none
  else
    match bucket key with
    | none => .error .noSuchKey
    | some h => .ok (some h)

/-- `addHistory(deviceId, sessionData)`: the put it sends to the bucket (the key and the list
saved), `none` when storage is disabled and `_saveJSON` does nothing.  `toLowerCase` is the
case conversion of the runtime. -/
def addHistory {σ : Type} (toLowerCase : JsString → JsString) (enabled : Bool)
    (bucket : JsString → Option (List σ)) (deviceId : JsString) (sessionData : σ) :
    Option (JsString × List σ) :=
  let key := js "history/" ++ toLowerCase deviceId ++ js ".json"
  let history : List σ :=
    match _readJSON enabled bucket key with
    | .ok (some h) => h
    | .ok none => []
    | .error _ => []
  -- Keep last 50 sessions
  let history := sessionData :: history
  let history := if history.length > 50 then history.take 50 else history
  if !enabled then none else some (key, history)

/-! ## `tools/WpfModuloTool/MainWindow.xaml.cs` -/

/-- The dictionary `encodingRules`: the tag of a segment and its code, in the order of the
initializer.  A `UInt32` is a natural number below `2 ^ 32`. -/
def encodingRules : List (String × Nat) :=
  [("0:1", 0), ("0:2", 0), ("0:4", 0), ("0:8", 0),
   ("0:10", 0x10), ("0:20", 0x20), ("0:40", 0x40), ("0:80", 0x80),
   ("1:1", 0x100), ("1:2", 0x200), ("1:4", 0x400), ("1:8", 0x800),
   ("1:10", 0x1000), ("1:20", 0x2000), ("1:40", 0x4000), ("1:80", 0x8000),
   ("2:1", 0x10000), ("2:2", 0x20000), ("2:4", 0x40000), ("2:8", 0x80000),
   ("2:10", 0x100000), ("2:20", 0x200000), ("2:40", 0x400000), ("2:80", 0x800000)]

/-- `encodingRules.ContainsKey(segment)` together with `encodingRules[segment]`: the code of
the tag, `none` when the dictionary has no such key. -/
def ruleOf (segment : String) : Option Nat :=
  (encodingRules.find? (fun p => p.1 = segment)).map (fun p => p.2)

/-- The loop of `GetCodeButton_Click`: starting from 0, the code of every selected segment
that is a key of `encodingRules` is or-ed into `codes`. -/
def getCode (selectedSegments : List String) : Nat :=
  selectedSegments.foldl (fun codes segment =>
    match ruleOf segment with
    | some v => codes ||| v
    | none => codes) 0

/-- The list `selectedSegments` after `DisplayHexCode(hexCode)`: it is cleared, then the tag
of every rule with `(hexCode & segmentCode) != 0` is added, in the order of the
dictionary. -/
def displayHexCode (hexCode : Nat) : List String :=
  (encodingRules.filter (fun p => hexCode &&& p.2 ≠ 0)).map (fun p => p.1)

/-- The four segments whose code is 0. -/
def zeroSegments : List String := ["0:1", "0:2", "0:4", "0:8"]

/-! ## The quiz sessions of `quiz_server/index.js` -/

/-- One question of a quiz, with the fields the routes read.  `correct` is `none` when the
question has no such field. -/
structure Question where
  id : JsString
  question : JsString
  options : List JsString
  correct : Option JsString
  deriving DecidableEq, Repr

/-- One element of `session.answers`. -/
structure AnswerRecord where
  questionId : JsString
  userAnswer : JsString
  isCorrect : Bool
  deriving DecidableEq, Repr

/-- One value of the map `sessions`. -/
structure Session where
  score : Nat
  currentQuestionIndex : Nat
  questions : List Question
  originalDeviceId : Option JsString
  created : Nat
  answers : List AnswerRecord
  deriving DecidableEq, Repr

/-- The map `sessions`: its entries in insertion order, at most one per key. -/
abbrev Sessions := List (JsString × Session)

/-- `sessions.get(id)`, `none` when `sessions.has(id)` is false. -/
def sessionsGet (S : Sessions) (id : JsString) : Option Session :=
  (S.find? (fun e => e.1 = id)).map (fun e => e.2)

/-- `sessions.set(id, s)`: the value of an existing key is replaced where it stands, a new key
is appended.  Writing through the object returned by `sessions.get(id)` is the first case. -/
def sessionsSet (S : Sessions) (id : JsString) (s : Session) : Sessions :=
  if S.any (fun e => e.1 = id) then S.map (fun e => if e.1 = id then (id, s) else e)
  else S ++ [(id, s)]

/-- `sessions.delete(id)`. -/
def sessionsDelete (S : Sessions) (id : JsString) : Sessions :=
  S.filter (fun e => e.1 ≠ id)

/-- `db.loadQuiz(deviceId)`: `_readJSON` of `quizzes/<lower-cased id>.json`. -/
def loadQuiz (toLowerCase : JsString → JsString) (enabled : Bool)
    (bucket : JsString → Option (List Question)) (deviceId : JsString) :
    Except JsError (Option (List Question)) :=
  _readJSON enabled bucket (js "quizzes/" ++ toLowerCase deviceId ++ js ".json")

/-- The question part of a response: `{ index, id, text, options }`. -/
structure QuestionView where
  index : Nat
  id : JsString
  text : JsString
  options : List JsString
  deriving DecidableEq, Repr

/-- The response of `POST /api/quiz/start`. -/
structure StartResponse where
  sessionId : JsString
  total : Nat
  question : QuestionView
  deriving DecidableEq, Repr

/-- The route `POST /api/quiz/start`.  `bodyDeviceId` is `req.body.deviceId`, `sessionId` the
value of `uuidv4()`, `created` and `now` the two values of `Date.now()`.  The result is the map
afterwards and the response, or the error thrown. -/
def quizStart (toLowerCase : JsString → JsString) (defaultQuestions : List Question)
    (enabled : Bool) (bucket : JsString → Option (List Question)) (S : Sessions)
    (bodyDeviceId : Option JsString) (sessionId : JsString) (created now : Nat) :
    Sessions × Except JsError StartResponse :=
  let deviceId : Option JsString :=
    if truthy bodyDeviceId then some (toLowerCase (trim (bodyDeviceId.getD []))) else none
  let loaded : Except JsError (List Question) :=
    if truthy deviceId then
      -- Try to load custom quiz from DB
      match loadQuiz toLowerCase enabled bucket (deviceId.getD []) with
      | .error e => .error e
      | .ok (some custom) => .ok custom
      | .ok none => .ok defaultQuestions
    else .ok defaultQuestions
  match loaded with
  | .error e => (S, .error e)
  | .ok questionsToUse =>
    let S1 := sessionsSet S sessionId
      { score := 0, currentQuestionIndex := 0, questions := questionsToUse,
        originalDeviceId := deviceId, created := created, answers := [] }
    -- Cleanup old sessions
    let S2 :=
      if S1.length > 200 then
        S1.filter (fun e => !(decide ((now : Int) - (e.2.created : Int) > 3600000)))
      else S1
    match questionsToUse with
    | [] => (S2, .error .typeError)
    | firstQuestion :: _ =>
      (S2, .ok { sessionId := sessionId, total := questionsToUse.length,
                 question := { index := 0, id := firstQuestion.id,
                               text := firstQuestion.question,
                               options := firstQuestion.options } })

/-- The body of one request to `POST /api/quiz/answer` together with what its handler may read
from outside: the two instants (`new Date()` and `Date.now()`) and whether the bucket accepts
the `PutObjectCommand` that `db.addHistory` sends while the request is handled (`_saveJSON`
logs a rejected put and throws the error on). -/
structure AnswerRequest where
  sessionId : JsString
  answer : JsString
  date : Nat
  now : Nat
  putAccepted : Bool
  deriving DecidableEq, Repr

/-- The JSON of a successful answer: `nextQuestion`, `finalScore` and `totalQuestions` are
present only in one of the two branches. -/
structure AnswerResponse where
  correct : Bool
  correctOption : Option JsString
  currentScore : Nat
  nextQuestion : Option QuestionView
  finished : Bool
  finalScore : Option Nat
  totalQuestions : Option Nat
  deriving DecidableEq, Repr

/-- The record handed to `db.addHistory`. -/
structure HistoryRecord where
  date : Nat
  score : Nat
  total : Nat
  durationSeconds : Int
  deriving DecidableEq, Repr

/-- How one request to `POST /api/quiz/answer` ends: with 404, with an error thrown (the
route has no `try`, no response is sent), or with a response, in which case `history` is the
call `db.addHistory(deviceId, record)` made, if any. -/
inductive AnswerOutcome where
  | notFound
  | thrown (e : JsError)
  | answered (response : AnswerResponse) (history : Option (JsString × HistoryRecord))
  deriving DecidableEq, Repr

/-- The route `POST /api/quiz/answer` for a string `answer`; `toUpperCase` is the case
conversion of the runtime and `enabled` the field `db.enabled`.  The session is written
through as the handler goes.  On the last answer `await db.addHistory(...)` comes before
`sessions.delete(sessionId)`: inside it a failed read is caught, `_saveJSON` returns at once
when storage is disabled and throws on when the bucket rejects the put, and then the handler
ends there, before the delete.  The result is the map afterwards and the outcome. -/
def quizAnswer (toUpperCase : JsString → JsString) (enabled : Bool) (S : Sessions)
    (req : AnswerRequest) : Sessions × AnswerOutcome :=
  match sessionsGet S req.sessionId with
  | none => (S, .notFound)
  | some session =>
    let questionsList := session.questions
    match questionsList[session.currentQuestionIndex]? with
    | none => (S, .thrown .typeError)
    | some currentQ =>
      let isCorrect : Bool := decide (some (toUpperCase req.answer) = currentQ.correct)
      let score := if isCorrect then session.score + 1 else session.score
      let answers := session.answers ++
        [{ questionId := currentQ.id, userAnswer := req.answer, isCorrect := isCorrect }]
      let index := session.currentQuestionIndex + 1
      let session1 : Session :=
        { session with score := score, answers := answers, currentQuestionIndex := index }
      let S1 := sessionsSet S req.sessionId session1
      if index < questionsList.length then
        (S1, .answered
          { correct := isCorrect, correctOption := currentQ.correct, currentScore := score,
            nextQuestion := (questionsList[index]?).map (fun nextQ =>
              { index := index, id := nextQ.id, text := nextQ.question,
                options := nextQ.options }),
            finished := false, finalScore := none, totalQuestions := none }
          none)
      else
        let response : AnswerResponse :=
          { correct := isCorrect, correctOption := currentQ.correct, currentScore := score,
            nextQuestion := none,
            finished := true, finalScore := some score,
            totalQuestions := some questionsList.length }
        -- Save history if device ID is known
        if truthy session.originalDeviceId then
          if enabled && !req.putAccepted then (S1, .thrown .putRejected)
          else
            (sessionsDelete S1 req.sessionId, .answered response
              (some (session.originalDeviceId.getD [],
                { date := req.date, score := score, total := questionsList.length,
                  durationSeconds :=
                    Int.fdiv ((req.now : Int) - (session.created : Int)) 1000 })))
        else (sessionsDelete S1 req.sessionId, .answered response none)

/-- The requests handled one after the other: the map afterwards and the outcomes in
order. -/
def runAnswers (toUpperCase : JsString → JsString) (enabled : Bool) (S : Sessions) :
    List AnswerRequest → Sessions × List AnswerOutcome
  | [] => (S, [])
  | req :: reqs =>
    ((runAnswers toUpperCase enabled (quizAnswer toUpperCase enabled S req).1 reqs).1,
      (quizAnswer toUpperCase enabled S req).2 ::
        (runAnswers toUpperCase enabled (quizAnswer toUpperCase enabled S req).1 reqs).2)

/-- The outcome is a response that reports the answer as correct. -/
def AnswerOutcome.isCorrect : AnswerOutcome → Bool
  | .answered r _ => r.correct
  | _ => false

/-- The session `id` exists and has recorded `k` answers of the quiz `qs`, of which `c` are
marked correct: its index is `k`, below the length of `qs`, and its score is `c`. -/
def SessionAt (S : Sessions) (id : JsString) (qs : List Question) (k c : Nat) : Prop :=
  ∃ s, sessionsGet S id = some s ∧ s.questions = qs ∧ s.currentQuestionIndex = k ∧
    s.answers.length = k ∧ k < qs.length ∧ s.score = c ∧
    s.score = (s.answers.filter (fun a => a.isCorrect)).length ∧
    s.score ≤ s.currentQuestionIndex

/-! ## Concrete states used in the examples -/

/-- The empty registry of a freshly opened database. -/
def emptyDB : DB := { devices := [], seq := 0 }

/-- The row of the device `ab` as `POST /api/devices` creates it. -/
def rowAb : DeviceRow :=
  { id := 1, mac := js "ab", name := some (js "lamp"), status := some (js "offline"),
    last_seen := none, current_version := none }

/-- A registry that holds the device `ab` only. -/
def registryAb : DB := { devices := [rowAb], seq := 1 }

/-- Three inbound messages: the unknown device `cd` reports a status and a version, the known
device `ab` reports a status. -/
def sampleMessages : List Message :=
  [{ tIns := 5, tUpd := 6, topic := js "device/cd/status", msgStr := js "online" },
   { tIns := 7, tUpd := 8, topic := js "device/cd/version", msgStr := js "1.0.2" },
   { tIns := 9, tUpd := 10, topic := js "device/ab/status", msgStr := js "online" }]

/-- A `DatabaseManager` with storage enabled and nothing linked yet. -/
def sampleManager : DatabaseManager := { enabled := true, DEVICE_MAP_CACHE := [], puts := [] }

/-- The user `u1` links ` AB ` twice, the user `u2` tries to link it, then `u1` removes it. -/
def sampleCalls : List Call :=
  [.link 11 (js "u1") (js " AB ") (some (js "lamp")),
   .link 12 (js "u1") (js "ab") (some (js "desk lamp")),
   .link 13 (js "u2") (js "ab") (some (js "mine")),
   .remove (js "u1") (js "Ab")]

/-- A `DatabaseManager` whose map holds the device `cd` of the user `u2`. -/
def otherManager : DatabaseManager :=
  { enabled := true,
    DEVICE_MAP_CACHE := [{ deviceId := js "cd", ownerId := js "u2", name := js "fan",
                           linkedAt := some 3 }],
    puts := [] }

/-- The first status message of the device `cd`. -/
def firstStatus : Message :=
  { tIns := 5, tUpd := 6, topic := js "device/cd/status", msgStr := js "online" }

/-- The first version message of the device `cd`. -/
def firstVersion : Message :=
  { tIns := 7, tUpd := 8, topic := js "device/cd/version", msgStr := js "1.0.2" }

/-- A schedule in which both invocations run their `SELECT id` before either runs its
`INSERT`: first, second, first, second, then the first one to its end. -/
def racingSchedule : List Bool := [true, false, true, false, true, true]

/-- A bucket that holds the same history of 50 sessions, numbered 0 to 49, under every key. -/
def fullBucket : JsString → Option (List Nat) := fun _ => some (List.range 50)

/-- Upper-casing of the letters a to z only; it agrees with `toUpperCase` on ASCII strings. -/
def asciiUpper (s : JsString) : JsString :=
  s.map (fun c => if 97 ≤ c.val ∧ c.val ≤ 122 then c - 32 else c)

/-- A quiz of two questions. -/
def sampleQuiz : List Question :=
  [{ id := js "q1", question := js "1 + 1 ?", options := [js "A", js "B"],
     correct := some (js "B") },
   { id := js "q2", question := js "2 + 2 ?", options := [js "A", js "B"],
     correct := some (js "A") }]

/-- Two answers to the session `s1`: `b`, which is right, and `b` again, which is wrong. -/
def sampleAnswers : List AnswerRequest :=
  [{ sessionId := js "s1", answer := js "b", date := 20, now := 21, putAccepted := true },
   { sessionId := js "s1", answer := js "b", date := 30, now := 31, putAccepted := true }]

/-- The response to a start request for the sample quiz with the session id `s1`. -/
def sampleStartResponse : StartResponse :=
  { sessionId := js "s1", total := 2,
    question := { index := 0, id := js "q1", text := js "1 + 1 ?",
                  options := [js "A", js "B"] } }

/-- A bucket that holds the sample quiz as the custom quiz of the device `ab` and nothing
else. -/
def quizBucketAb : JsString → Option (List Question) :=
  fun key => if key = js "quizzes/ab.json" then some sampleQuiz else none

/-- The map of sessions after the device `ab` has started its custom quiz, with storage
enabled, on an empty map; the session id is `s1`. -/
def sessionsOfAb : Sessions :=
  (quizStart asciiLower [] true quizBucketAb [] (some (js "ab")) (js "s1") 10 10).1

/-- Three answers to the session `s1` of a quiz of two questions; the bucket rejects the put
sent while the second one is handled. -/
def answersPutRejected : List AnswerRequest :=
  [{ sessionId := js "s1", answer := js "b", date := 20, now := 21, putAccepted := true },
   { sessionId := js "s1", answer := js "b", date := 30, now := 31, putAccepted := false },
   { sessionId := js "s1", answer := js "a", date := 40, now := 41, putAccepted := true }]

/-- The id made of the character U+1F600 (a surrogate pair) followed by `abcd`: six code
units. -/
def grinningAbcd : JsString := [0xD83D, 0xDE00] ++ js "abcd"

/-! ## Lemmas on strings -/

theorem split_ne_nil (sep : CodeUnit) (s : JsString) : split sep s ≠ [] := by
  induction s with
  | nil => simp [split]
  | cons c cs ih =>
    unfold split
    split
    · simp
    · split <;> simp

theorem split_of_not_mem (sep : CodeUnit) (a : JsString) (h : sep ∉ a) :
    split sep a = [a] := by
  induction a with
  | nil => simp [split]
  | cons c cs ih =>
    have hc : c ≠ sep := fun e => h (by simp [e])
    have hcs : sep ∉ cs := fun e => h (by simp [e])
    simp [split, hc, ih hcs]

theorem split_append_sep (sep : CodeUnit) (a b : JsString) (h : sep ∉ a) :
    split sep (a ++ sep :: b) = a :: split sep b := by
  induction a with
  | nil => simp [split]
  | cons c cs ih =>
    have hc : c ≠ sep := fun e => h (by simp [e])
    have hcs : sep ∉ cs := fun e => h (by simp [e])
    simp [split, hc, ih hcs]

/-- The topic `device/X/kind` splits into exactly the three segments `device`, `X`, `kind`
when neither `X` nor `kind` contains a solidus. -/
theorem split_device_topic (X kind : JsString) (hX : slash ∉ X) (hk : slash ∉ kind) :
    split slash (js "device" ++ slash :: (X ++ slash :: kind)) = [js "device", X, kind] := by
  rw [split_append_sep _ _ _ (by decide), split_append_sep _ _ _ hX,
    split_of_not_mem _ _ hk]

theorem slice_neg_five (s : JsString) : slice s (-5) = lastUnits 5 s := by
  have h1 : slice s (-5) = s.drop (s.length - 5) := by
    unfold slice
    simp only [show ((-5 : Int) < 0) from by decide, if_true]
    congr 1
    omega
  rw [h1, lastUnits, List.reverse_take, List.reverse_reverse]
  by_cases h : 5 ≤ s.length
  · simp [h]
  · simp [h]


theorem lastUnits_of_length_le (n : Nat) (s : JsString) (h : s.length ≤ n) :
    lastUnits n s = s := by
  unfold lastUnits
  rw [List.take_of_length_le (by simpa using h), List.reverse_reverse]

theorem toWellFormed_cons (c : CodeUnit) (t : JsString)
    (hc : isHighSurrogate c = false ∧ isLowSurrogate c = false) :
    toWellFormed (c :: t) = c :: toWellFormed t := by
  cases t with
  | nil => simp [toWellFormed, hc.1, hc.2]
  | cons d rest => simp [toWellFormed, hc.1, hc.2]

/-- A string without surrogates in front of another one comes back from SQLite as it is,
followed by what comes back of the other one. -/
theorem toWellFormed_append (p t : JsString)
    (hp : ∀ c ∈ p, isHighSurrogate c = false ∧ isLowSurrogate c = false) :
    toWellFormed (p ++ t) = p ++ toWellFormed t := by
  induction p with
  | nil => rfl
  | cons c p ih =>
    rw [List.cons_append, toWellFormed_cons c _ (hp c (by simp)),
      ih (fun d hd => hp d (by simp [hd])), List.cons_append]

theorem toWellFormed_of_no_surrogate (t : JsString)
    (ht : ∀ c ∈ t, isHighSurrogate c = false ∧ isLowSurrogate c = false) :
    toWellFormed t = t := by
  have := toWellFormed_append t [] ht
  simpa [toWellFormed] using this

theorem no_surrogate_of_all (t : JsString)
    (h : t.all (fun c => !isHighSurrogate c && !isLowSurrogate c) = true) :
    ∀ c ∈ t, isHighSurrogate c = false ∧ isLowSurrogate c = false := by
  intro c hc
  have := List.all_eq_true.1 h c hc
  simpa using this

theorem toWellFormed_device_name (t : JsString) :
    toWellFormed (js "Device-" ++ t) = js "Device-" ++ toWellFormed t :=
  toWellFormed_append (js "Device-") t (no_surrogate_of_all _ (by decide))

/-! ## Lemmas on the message handler -/

theorem selectByMac_eq_none_iff (db : DB) (mac : JsString) :
    selectByMac db mac = none ↔ ∀ r ∈ db.devices, r.mac ≠ mac := by
  simp [selectByMac, List.find?_eq_none]

theorem selectByMac_discoveredDB (db : DB) (mac : JsString) (tIns : Nat)
    (hsel : selectByMac db mac = none) :
    selectByMac (discoveredDB db mac tIns) mac = some (discoveredRow db mac tIns) := by
  unfold selectByMac at hsel ⊢
  simp [discoveredDB, List.find?_append, hsel, discoveredRow]

theorem insertDevice_of_absent (db : DB) (mac : JsString) (tIns : Nat)
    (hsel : selectByMac db mac = none) :
    insertDevice db mac (js "Device-" ++ slice mac (-5)) (js "online") tIns
      = .ok (discoveredDB db mac tIns) := by
  have h := (selectByMac_eq_none_iff db mac).1 hsel
  have hany : db.devices.any (fun r => decide (r.mac = mac)) = false := by
    simp only [List.any_eq_false]
    intro r hr
    simpa using h r hr
  simp [insertDevice, hany, discoveredDB, discoveredRow]

/-- The handler on a well-formed topic whose device already has a row. -/
theorem onMessage_known (db : DB) (tIns tUpd : Nat) (topic msgStr p0 mac type : JsString)
    (rest : List JsString) (r : DeviceRow)
    (h : split slash topic = p0 :: mac :: type :: rest) (hsel : selectByMac db mac = some r) :
    onMessage (some db) tIns tUpd topic msgStr =
      if type = js "status" then
        { db := some (updateStatus db msgStr tUpd mac),
          events := [deviceUpdate (.status mac msgStr)], error := none }
      else if type = js "version" then
        { db := some (updateVersion db msgStr mac),
          events := [deviceUpdate (.version mac msgStr)], error := none }
      else { db := some db, events := [], error := none } := by
  simp [onMessage, h, getDB, selectIdByMac, hsel]

/-- The handler on a well-formed topic whose device has no row yet. -/
theorem onMessage_unknown (db : DB) (tIns tUpd : Nat) (topic msgStr p0 mac type : JsString)
    (rest : List JsString)
    (h : split slash topic = p0 :: mac :: type :: rest) (hsel : selectByMac db mac = none) :
    onMessage (some db) tIns tUpd topic msgStr =
      if type = js "status" then
        { db := some (updateStatus (discoveredDB db mac tIns) msgStr tUpd mac),
          events := [deviceUpdate (.row (some (discoveredRow db mac tIns))),
                     deviceUpdate (.status mac msgStr)], error := none }
      else if type = js "version" then
        { db := some (updateVersion (discoveredDB db mac tIns) msgStr mac),
          events := [deviceUpdate (.row (some (discoveredRow db mac tIns))),
                     deviceUpdate (.version mac msgStr)], error := none }
      else { db := some (discoveredDB db mac tIns),
             events := [deviceUpdate (.row (some (discoveredRow db mac tIns)))],
             error := none } := by
  simp [onMessage, h, getDB, selectIdByMac, hsel, insertDevice_of_absent,
    selectByMac_discoveredDB]


theorem split_device_topic_kind (X kind : JsString) (hX : slash ∉ X) (hk : slash ∉ kind) :
    split slash (js "device/" ++ X ++ js "/" ++ kind) = [js "device", X, kind] := by
  have e : js "device/" ++ X ++ js "/" ++ kind = js "device" ++ slash :: (X ++ slash :: kind) := by
    have e1 : js "device/" = js "device" ++ [slash] := by decide
    have e2 : js "/" = [slash] := by decide
    rw [e1, e2]
    simp
  rw [e, split_device_topic X kind hX hk]

theorem selectByMac_updateStatus (db : DB) (s : JsString) (t : Nat) (X : JsString) :
    selectByMac (updateStatus db s t X) X =
      (selectByMac db X).map (fun r => { r with status := some s, last_seen := some t }) := by
  unfold selectByMac updateStatus
  simp only [List.find?_map]
  have hp : ((fun r : DeviceRow => decide (r.mac = X)) ∘ fun r : DeviceRow =>
      if r.mac = X then { r with status := some s, last_seen := some t } else r)
      = fun r : DeviceRow => decide (r.mac = X) := by
    funext r
    by_cases h : r.mac = X <;> simp [h]
  rw [hp]
  cases hf : List.find? (fun r : DeviceRow => decide (r.mac = X)) db.devices with
  | none => rfl
  | some r =>
    have := List.find?_some hf
    simp at this
    simp [this]

theorem status_of_mem_updateStatus (db : DB) (s : JsString) (t : Nat) (X : JsString)
    (r : DeviceRow) (hr : r ∈ (updateStatus db s t X).devices) (hm : r.mac = X) :
    r.status = some s := by
  simp only [updateStatus, List.mem_map] at hr
  obtain ⟨r0, _, rfl⟩ := hr
  by_cases h : r0.mac = X
  · simp [h]
  · simp [h] at hm

theorem updateStatus_of_absent (db : DB) (s : JsString) (t : Nat) (X : JsString)
    (habs : ∀ r ∈ db.devices, r.mac ≠ X) : (updateStatus db s t X).devices = db.devices := by
  simp only [updateStatus]
  conv_rhs => rw [← List.map_id db.devices]
  apply List.map_congr_left
  intro r hr
  simp [habs r hr]

theorem updateVersion_of_absent (db : DB) (v : JsString) (X : JsString)
    (habs : ∀ r ∈ db.devices, r.mac ≠ X) : (updateVersion db v X).devices = db.devices := by
  simp only [updateVersion]
  conv_rhs => rw [← List.map_id db.devices]
  apply List.map_congr_left
  intro r hr
  simp [habs r hr]

/-! ## The claims -/

/-- C1: for every registry state, every device id `X` without a solidus and every payload `s`
(in particular `online` and `offline`), after the handler of fota_server_next has processed the
topic `device/X/status` with payload `s`, a row with `mac = X` exists, the row found for `X`
has status `s`, and so has every row whose `mac` is `X`; this holds whether `X` had a row
before or is discovered by this message. -/
theorem C1_status_message_sets_status (db : DB) (tIns tUpd : Nat) (X s : JsString)
    (hX : slash ∉ X) :
    ∃ db1, (onMessage (some db) tIns tUpd (js "device/" ++ X ++ js "/status") s).db = some db1 ∧
      (∃ r, selectByMac db1 X = some r ∧ r.mac = X ∧ r.status = some s) ∧
      (∀ r ∈ db1.devices, r.mac = X → r.status = some s) := by
  have hsplit : split slash (js "device/" ++ X ++ js "/status") = [js "device", X, js "status"] := by
    have e : js "/status" = js "/" ++ js "status" := by decide
    rw [e, ← List.append_assoc]
    exact split_device_topic_kind X (js "status") hX (by decide)
  cases hsel : selectByMac db X with
  | some r0 =>
    rw [onMessage_known db tIns tUpd _ s _ X _ _ r0 hsplit hsel]
    refine ⟨updateStatus db s tUpd X, by simp, ?_, status_of_mem_updateStatus db s tUpd X⟩
    have hm : r0.mac = X := by
      have := List.find?_some hsel
      simpa using this
    exact ⟨{ r0 with status := some s, last_seen := some tUpd },
      by rw [selectByMac_updateStatus, hsel]; rfl, hm, rfl⟩
  | none =>
    rw [onMessage_unknown db tIns tUpd _ s _ X _ _ hsplit hsel]
    refine ⟨updateStatus (discoveredDB db X tIns) s tUpd X, by simp, ?_,
      status_of_mem_updateStatus _ s tUpd X⟩
    exact ⟨{ discoveredRow db X tIns with status := some s, last_seen := some tUpd },
      by rw [selectByMac_updateStatus, selectByMac_discoveredDB db X tIns hsel]; rfl, rfl, rfl⟩

/-- Witness of C1: the device `ab`, unknown to an empty registry, reports `offline`. -/
theorem C1_status_message_sets_status_witness :
    slash ∉ js "ab" ∧
    ∃ db1, (onMessage (some { devices := [], seq := 0 }) 5 6
        (js "device/" ++ js "ab" ++ js "/status") (js "offline")).db = some db1 ∧
      (∃ r, selectByMac db1 (js "ab") = some r ∧ r.mac = js "ab" ∧
        r.status = some (js "offline")) ∧
      (∀ r ∈ db1.devices, r.mac = js "ab" → r.status = some (js "offline")) :=
  ⟨by decide, C1_status_message_sets_status { devices := [], seq := 0 } 5 6 (js "ab")
    (js "offline") (by decide)⟩


/-- C2, counterexample: the id is U+1F600 followed by `abcd`, six UTF-16 code units without
a solidus, and the registry is empty.  `slice(-5)` cuts the surrogate pair, and the low
surrogate left over is stored by SQLite as U+FFFD: the name of the new row is `Device-`,
U+FFFD, `abcd`, which is neither `Device-` followed by the last 5 code units of the id nor
`Device-` followed by the whole id, whose 5 characters are U+1F600, `a`, `b`, `c`, `d`. -/
theorem C2_counterexample :
    slash ∉ grinningAbcd ∧ selectByMac emptyDB grinningAbcd = none ∧
    (onMessage (some emptyDB) 5 6 (js "device/" ++ grinningAbcd ++ js "/" ++ js "status")
      (js "online")).db
      = some { devices := [{ id := 1, mac := grinningAbcd,
                             name := some (js "Device-" ++ [0xFFFD] ++ js "abcd"),
                             status := some (js "online"), last_seen := some 6,
                             current_version := none }],
               seq := 1 } ∧
    lastUnits 5 grinningAbcd = [0xDE00] ++ js "abcd" ∧
    js "Device-" ++ [0xFFFD] ++ js "abcd" ≠ js "Device-" ++ lastUnits 5 grinningAbcd ∧
    js "Device-" ++ [0xFFFD] ++ js "abcd" ≠ js "Device-" ++ grinningAbcd := by
  decide

/-- C2, amended: for every registry state with no row for the id `X` (a string without a
solidus) and every payload, one message on `device/X/status` or `device/X/version` handled by
fota_server_next adds exactly one row: the table is the old table followed by one new row, so
the row count grows by exactly 1, the new row has `mac = X`, and its name is `Device-` followed
by the last 5 code units of `X` (all of `X` when it has fewer than 5) as SQLite returns them.
The name is `Device-` followed by exactly these code units if and only if they contain no
surrogate without its partner, in particular when none of them is a surrogate, as for every
id without characters outside the Basic Multilingual Plane. -/
theorem C2_first_message_creates_one_row (db : DB) (tIns tUpd : Nat) (X kind msgStr : JsString)
    (hX : slash ∉ X) (hkind : kind = js "status" ∨ kind = js "version")
    (habs : ∀ r ∈ db.devices, r.mac ≠ X) :
    ∃ db1 r, (onMessage (some db) tIns tUpd (js "device/" ++ X ++ js "/" ++ kind) msgStr).db
        = some db1 ∧
      db1.devices = db.devices ++ [r] ∧ db1.devices.length = db.devices.length + 1 ∧
      r.mac = X ∧ r.name = some (js "Device-" ++ toWellFormed (lastUnits 5 X)) ∧
      (r.name = some (js "Device-" ++ lastUnits 5 X) ↔
        toWellFormed (lastUnits 5 X) = lastUnits 5 X) ∧
      ((∀ c ∈ lastUnits 5 X, isHighSurrogate c = false ∧ isLowSurrogate c = false) →
        r.name = some (js "Device-" ++ lastUnits 5 X)) := by
  have hk : slash ∉ kind := by
    rcases hkind with h | h <;> subst h <;> decide
  have hsplit := split_device_topic_kind X kind hX hk
  have hsel := (selectByMac_eq_none_iff db X).2 habs
  have hname : (discoveredRow db X tIns).name
      = some (js "Device-" ++ toWellFormed (lastUnits 5 X)) := by
    simp only [discoveredRow, slice_neg_five, toWellFormed_device_name]
  have hiff : (discoveredRow db X tIns).name = some (js "Device-" ++ lastUnits 5 X) ↔
      toWellFormed (lastUnits 5 X) = lastUnits 5 X := by
    rw [hname]
    constructor
    · intro h
      exact List.append_cancel_left (Option.some.inj h)
    · intro h
      rw [h]
  have hbmp : (∀ c ∈ lastUnits 5 X, isHighSurrogate c = false ∧ isLowSurrogate c = false) →
      (discoveredRow db X tIns).name = some (js "Device-" ++ lastUnits 5 X) := by
    intro h
    rw [hname, toWellFormed_of_no_surrogate _ h]
  rw [onMessage_unknown db tIns tUpd _ msgStr _ X kind _ hsplit hsel]
  rcases hkind with h | h
  · subst h
    refine ⟨updateStatus (discoveredDB db X tIns) msgStr tUpd X,
      { discoveredRow db X tIns with status := some msgStr, last_seen := some tUpd },
      by simp, ?_, ?_, rfl, hname, hiff, hbmp⟩
    · have := updateStatus_of_absent db msgStr tUpd X habs
      simp only [updateStatus] at this
      simp [updateStatus, discoveredDB, this, discoveredRow]
    · simp [updateStatus, discoveredDB]
  · subst h
    have hne : js "version" ≠ js "status" := by decide
    refine ⟨updateVersion (discoveredDB db X tIns) msgStr X,
      { discoveredRow db X tIns with current_version := some msgStr },
      by simp [hne], ?_, ?_, rfl, hname, hiff, hbmp⟩
    · have := updateVersion_of_absent db msgStr X habs
      simp only [updateVersion] at this
      simp [updateVersion, discoveredDB, this, discoveredRow]
    · simp [updateVersion, discoveredDB]

/-- Witness of C2 amended: the first `version` message of the device `aa:bb:cc` reaches a
registry that holds one other device; the id has no surrogate. -/
theorem C2_first_message_creates_one_row_witness :
    (∀ c ∈ lastUnits 5 (js "aa:bb:cc"), isHighSurrogate c = false ∧ isLowSurrogate c = false) ∧
    ∃ db1 r, (onMessage (some registryAb) 5 6
        (js "device/" ++ js "aa:bb:cc" ++ js "/" ++ js "version") (js "1.0.2")).db = some db1 ∧
      db1.devices = registryAb.devices ++ [r] ∧
      db1.devices.length = registryAb.devices.length + 1 ∧
      r.mac = js "aa:bb:cc" ∧ r.name = some (js "Device-" ++ lastUnits 5 (js "aa:bb:cc")) :=
  have hbmp : ∀ c ∈ lastUnits 5 (js "aa:bb:cc"),
      isHighSurrogate c = false ∧ isLowSurrogate c = false :=
    no_surrogate_of_all _ (by decide)
  match C2_first_message_creates_one_row registryAb 5 6 (js "aa:bb:cc") (js "version")
    (js "1.0.2") (by decide) (Or.inr rfl) (by decide) with
  | ⟨db1, r, h1, h2, h3, h4, _, _, h6⟩ => ⟨hbmp, db1, r, h1, h2, h3, h4, h6 hbmp⟩

/-- C3: for every topic whose split on the solidus has fewer than 3 segments, every payload and
every registry state (even an unopened database), the handler of fota_server_next and the
handler of fota_server both leave the registry exactly as it was, emit no event and raise no
error. -/
theorem C3_short_topic_discarded (db? : Option DB) (tIns tUpd : Nat) (topic msgStr : JsString)
    (h : (split slash topic).length < 3) :
    onMessage db? tIns tUpd topic msgStr = { db := db?, events := [], error := none } ∧
    legacyOnMessage db? tUpd topic msgStr = { db := db?, events := [], error := none } := by
  constructor
  · simp [onMessage, h]
  · simp [legacyOnMessage, h]

/-- Witness of C3: the two-segment topic `device/ab`. -/
theorem C3_short_topic_discarded_witness :
    (split slash (js "device/ab")).length < 3 ∧
    onMessage (some registryAb) 5 6 (js "device/ab") (js "online")
      = { db := some registryAb, events := [], error := none } ∧
    legacyOnMessage (some registryAb) 6 (js "device/ab") (js "online")
      = { db := some registryAb, events := [], error := none } :=
  ⟨by decide, C3_short_topic_discarded (some registryAb) 5 6 (js "device/ab")
    (js "online") (by decide)⟩

/-- C4, counterexample: the topic `device/ab/foo` has three segments and the kind `foo`, yet
on the empty registry the handler of fota_server_next inserts a row for `ab` and emits one
event carrying that row. -/
theorem C4_counterexample :
    3 ≤ (split slash (js "device/ab/foo")).length ∧
    (split slash (js "device/ab/foo")).getD 2 [] ≠ js "status" ∧
    (split slash (js "device/ab/foo")).getD 2 [] ≠ js "version" ∧
    onMessage (some emptyDB) 5 6 (js "device/ab/foo") (js "x") =
      { db := some { devices := [{ id := 1, mac := js "ab", name := some (js "Device-ab"),
                                   status := some (js "online"), last_seen := some 5,
                                   current_version := none }],
                     seq := 1 },
        events := [deviceUpdate (.row (some { id := 1, mac := js "ab",
                                              name := some (js "Device-ab"),
                                              status := some (js "online"),
                                              last_seen := some 5,
                                              current_version := none }))],
        error := none } ∧
    (onMessage (some emptyDB) 5 6 (js "device/ab/foo") (js "x")).db ≠ some emptyDB ∧
    (onMessage (some emptyDB) 5 6 (js "device/ab/foo") (js "x")).events ≠ [] := by
  decide

/-- C4, amended: for every topic with at least 3 segments whose kind (segment 2) is neither
`status` nor `version`, every payload and every registry state, the handler of
fota_server_next raises no error; and when the device id (segment 1) already has a row, it
leaves the registry unchanged and emits no event. -/
theorem C4_unknown_kind_on_known_device (db : DB) (tIns tUpd : Nat) (topic msgStr : JsString)
    (h3 : 3 ≤ (split slash topic).length)
    (hs : (split slash topic).getD 2 [] ≠ js "status")
    (hv : (split slash topic).getD 2 [] ≠ js "version") :
    (onMessage (some db) tIns tUpd topic msgStr).error = none ∧
    ((∃ r ∈ db.devices, r.mac = (split slash topic).getD 1 []) →
      onMessage (some db) tIns tUpd topic msgStr
        = { db := some db, events := [], error := none }) := by
  obtain ⟨p0, mac, type, rest, hsplit⟩ :
      ∃ p0 mac type rest, split slash topic = p0 :: mac :: type :: rest := by
    match hp : split slash topic with
    | [] => simp [hp] at h3
    | [_] => simp [hp] at h3
    | [_, _] => simp [hp] at h3
    | p0 :: mac :: type :: rest => exact ⟨p0, mac, type, rest, rfl⟩
  rw [hsplit] at hs hv
  simp only [List.getD_cons_succ, List.getD_cons_zero] at hs hv
  rw [hsplit]
  simp only [List.getD_cons_succ, List.getD_cons_zero]
  cases hsel : selectByMac db mac with
  | some r0 =>
    rw [onMessage_known db tIns tUpd topic msgStr p0 mac type rest r0 hsplit hsel]
    simp [hs, hv]
  | none =>
    rw [onMessage_unknown db tIns tUpd topic msgStr p0 mac type rest hsplit hsel]
    simp only [hs, hv, if_false, true_and]
    intro hex
    obtain ⟨r, hr, hm⟩ := hex
    exact absurd hm ((selectByMac_eq_none_iff db mac).1 hsel r hr)

/-- Witness of C4 amended: the kind `foo` for the device `ab`, which already has a row. -/
theorem C4_unknown_kind_on_known_device_witness :
    (∃ r ∈ registryAb.devices, r.mac = (split slash (js "device/ab/foo")).getD 1 []) ∧
    (onMessage (some registryAb) 5 6 (js "device/ab/foo") (js "x")).error = none ∧
    onMessage (some registryAb) 5 6 (js "device/ab/foo") (js "x")
      = { db := some registryAb, events := [], error := none } :=
  have hex : ∃ r ∈ registryAb.devices, r.mac = (split slash (js "device/ab/foo")).getD 1 [] :=
    ⟨rowAb, by simp [registryAb], by decide⟩
  have h := C4_unknown_kind_on_known_device registryAb 5 6 (js "device/ab/foo") (js "x")
    (by decide) (by decide) (by decide)
  ⟨hex, h.1, h.2 hex⟩

/-! ### Uniqueness of ids -/

theorem updateStatus_macs (db : DB) (s : JsString) (t : Nat) (X : JsString) :
    (updateStatus db s t X).devices.map (fun r => r.mac) = db.devices.map (fun r => r.mac) := by
  simp only [updateStatus, List.map_map]
  apply List.map_congr_left
  intro r _
  by_cases h : r.mac = X <;> simp [h]

theorem updateVersion_macs (db : DB) (v : JsString) (X : JsString) :
    (updateVersion db v X).devices.map (fun r => r.mac) = db.devices.map (fun r => r.mac) := by
  simp only [updateVersion, List.map_map]
  apply List.map_congr_left
  intro r _
  by_cases h : r.mac = X <;> simp [h]

theorem uniqueMac_discoveredDB (db : DB) (mac : JsString) (t : Nat) (h : UniqueMac db)
    (hsel : selectByMac db mac = none) : UniqueMac (discoveredDB db mac t) := by
  have habs := (selectByMac_eq_none_iff db mac).1 hsel
  unfold UniqueMac at h ⊢
  simp only [discoveredDB, List.map_append, List.map_cons, List.map_nil]
  rw [List.nodup_append]
  refine ⟨h, List.nodup_singleton _, ?_⟩
  intro a ha hb
  simp only [List.mem_map] at ha
  obtain ⟨r, hr, rfl⟩ := ha
  simp only [discoveredRow, List.mem_singleton] at hb
  exact habs r hr hb

/-- One handler invocation on an opened database leaves an opened database and keeps the
`mac` values distinct. -/
theorem onMessage_uniqueMac (db : DB) (tIns tUpd : Nat) (topic msgStr : JsString)
    (h : UniqueMac db) :
    ∃ db1, (onMessage (some db) tIns tUpd topic msgStr).db = some db1 ∧ UniqueMac db1 := by
  by_cases h3 : (split slash topic).length < 3
  · exact ⟨db, by simp [onMessage, h3], h⟩
  · obtain ⟨p0, mac, type, rest, hsplit⟩ :
        ∃ p0 mac type rest, split slash topic = p0 :: mac :: type :: rest := by
      match hp : split slash topic with
      | [] => simp [hp] at h3
      | [_] => simp [hp] at h3
      | [_, _] => simp [hp] at h3
      | p0 :: mac :: type :: rest => exact ⟨p0, mac, type, rest, rfl⟩
    cases hsel : selectByMac db mac with
    | some r0 =>
      rw [onMessage_known db tIns tUpd topic msgStr p0 mac type rest r0 hsplit hsel]
      by_cases hs : type = js "status"
      · refine ⟨updateStatus db msgStr tUpd mac, by simp [hs], ?_⟩
        unfold UniqueMac
        rw [updateStatus_macs]
        exact h
      · by_cases hv : type = js "version"
        · subst hv
          refine ⟨updateVersion db msgStr mac, by simp [hs], ?_⟩
          unfold UniqueMac
          rw [updateVersion_macs]
          exact h
        · exact ⟨db, by simp [hs, hv], h⟩
    | none =>
      rw [onMessage_unknown db tIns tUpd topic msgStr p0 mac type rest hsplit hsel]
      have hd := uniqueMac_discoveredDB db mac tIns h hsel
      by_cases hs : type = js "status"
      · refine ⟨updateStatus (discoveredDB db mac tIns) msgStr tUpd mac, by simp [hs], ?_⟩
        unfold UniqueMac
        rw [updateStatus_macs]
        exact hd
      · by_cases hv : type = js "version"
        · subst hv
          refine ⟨updateVersion (discoveredDB db mac tIns) msgStr mac, by simp [hs], ?_⟩
          unfold UniqueMac
          rw [updateVersion_macs]
          exact hd
        · exact ⟨discoveredDB db mac tIns, by simp [hs, hv], hd⟩

theorem processAll_uniqueMac (msgs : List Message) :
    ∀ db : DB, UniqueMac db → ∃ db1, processAll (some db) msgs = some db1 ∧ UniqueMac db1 := by
  induction msgs with
  | nil => intro db h; exact ⟨db, rfl, h⟩
  | cons m ms ih =>
    intro db h
    obtain ⟨db1, h1, hu⟩ := onMessage_uniqueMac db m.tIns m.tUpd m.topic m.msgStr h
    simp only [processAll, h1]
    exact ih db1 hu

theorem saveJSON_cache (st : DatabaseManager) (key : JsString) (data : List DeviceLink) :
    (_saveJSON st key data).DEVICE_MAP_CACHE = st.DEVICE_MAP_CACHE := by
  unfold _saveJSON
  split <;> rfl

theorem modifyFirst_deviceIds (p : DeviceLink → Bool) (f : DeviceLink → DeviceLink)
    (hf : ∀ d, (f d).deviceId = d.deviceId) (l : List DeviceLink) :
    (modifyFirst p f l).map (fun d => d.deviceId) = l.map (fun d => d.deviceId) := by
  induction l with
  | nil => rfl
  | cons x xs ih =>
    unfold modifyFirst
    split
    · simp [hf]
    · simp [ih]

theorem linkDevice_uniqueDeviceId (toLowerCase : JsString → JsString) (st : DatabaseManager)
    (now : Nat) (userId deviceId : JsString) (name : Option JsString)
    (h : UniqueDeviceId st) :
    UniqueDeviceId (linkDevice toLowerCase st now userId deviceId name).1 := by
  unfold linkDevice
  simp only
  cases hfind : st.DEVICE_MAP_CACHE.find?
      (fun d => decide (d.deviceId = normalize toLowerCase deviceId)) with
  | some e =>
    simp only
    split
    · exact h
    · unfold UniqueDeviceId at h ⊢
      rw [saveJSON_cache]
      simp only
      rw [modifyFirst_deviceIds]
      · exact h
      · intro d
        rfl
  | none =>
    simp only
    unfold UniqueDeviceId at h ⊢
    rw [saveJSON_cache]
    simp only [List.map_append, List.map_cons, List.map_nil]
    rw [List.nodup_append]
    refine ⟨h, List.nodup_singleton _, ?_⟩
    intro a ha hb
    simp only [List.mem_map] at ha
    obtain ⟨d, hd, rfl⟩ := ha
    simp only [List.mem_singleton] at hb
    have := List.find?_eq_none.1 hfind d hd
    simp at this
    exact this hb

theorem removeDevice_uniqueDeviceId (toLowerCase : JsString → JsString) (st : DatabaseManager)
    (userId deviceId : JsString) (h : UniqueDeviceId st) :
    UniqueDeviceId (removeDevice toLowerCase st userId deviceId).1 := by
  have hsub : ∀ p : DeviceLink → Bool,
      ((st.DEVICE_MAP_CACHE.filter p).map (fun d => d.deviceId)).Nodup :=
    fun p => List.Nodup.sublist (List.Sublist.map _ (List.filter_sublist _)) h
  unfold removeDevice
  simp only
  split
  · unfold UniqueDeviceId
    rw [saveJSON_cache]
    exact hsub _
  · exact hsub _

theorem runCalls_uniqueDeviceId (toLowerCase : JsString → JsString) (calls : List Call) :
    ∀ st : DatabaseManager, UniqueDeviceId st →
      UniqueDeviceId (runCalls toLowerCase st calls) := by
  induction calls with
  | nil => intro st h; exact h
  | cons c cs ih =>
    intro st h
    cases c with
    | link now u d n =>
      exact ih _ (linkDevice_uniqueDeviceId toLowerCase st now u d n h)
    | remove u d =>
      exact ih _ (removeDevice_uniqueDeviceId toLowerCase st u d h)

/-- C5: "no two rows share an id" is an invariant.  From a `devices` table without duplicate
`mac` values, every sequence of inbound messages handled one after the other by
fota_server_next ends in a table without duplicate `mac` values; and from a
`DEVICE_MAP_CACHE` without duplicate `deviceId` values, every sequence of `linkDevice` and
`removeDevice` calls ends in a cache without duplicate `deviceId` values. -/
theorem C5_unique_id_invariant (toLowerCase : JsString → JsString) (db : DB)
    (msgs : List Message) (st : DatabaseManager) (calls : List Call)
    (hdb : UniqueMac db) (hst : UniqueDeviceId st) :
    (∃ db1, processAll (some db) msgs = some db1 ∧ UniqueMac db1) ∧
    UniqueDeviceId (runCalls toLowerCase st calls) :=
  ⟨processAll_uniqueMac msgs db hdb, runCalls_uniqueDeviceId toLowerCase calls st hst⟩

/-- Witness of C5: two messages of a new device and one of a known device; a device linked
twice by one user, claimed by another and then removed. -/
theorem C5_unique_id_invariant_witness :
    UniqueMac registryAb ∧ UniqueDeviceId sampleManager ∧
    (∃ db1, processAll (some registryAb) sampleMessages = some db1 ∧ UniqueMac db1) ∧
    UniqueDeviceId (runCalls asciiLower sampleManager sampleCalls) :=
  have hdb : UniqueMac registryAb := by simp [UniqueMac, registryAb]
  have hst : UniqueDeviceId sampleManager := by simp [UniqueDeviceId, sampleManager]
  ⟨hdb, hst, C5_unique_id_invariant asciiLower registryAb sampleMessages sampleManager
    sampleCalls hdb hst⟩

/-! ### The trigger route -/

/-- C6: for every target device id (present or not), a trigger request in which both `url` and
`assetsUrl` are absent is answered with HTTP 400 and an error, by fota_server_next and by
fota_server alike, and causes zero publishes: nothing is published while the route runs and no
timer is registered. -/
theorem C6_no_url_rejected (mac : Option JsString) :
    (trigger { mac := mac, url := none, assetsUrl := none }).status = 400 ∧
    (trigger { mac := mac, url := none, assetsUrl := none }).error
      = some (js "Missing mac or at least one url") ∧
    (trigger { mac := mac, url := none, assetsUrl := none }).published = [] ∧
    (trigger { mac := mac, url := none, assetsUrl := none }).timers = [] ∧
    issueOrder (trigger { mac := mac, url := none, assetsUrl := none }) = [] ∧
    (legacyTrigger { mac := mac, url := none, assetsUrl := none }).status = 400 ∧
    (legacyTrigger { mac := mac, url := none, assetsUrl := none }).error
      = some (js "Missing mac or at least one url (firmware or assets)") ∧
    (legacyTrigger { mac := mac, url := none, assetsUrl := none }).published = [] ∧
    (legacyTrigger { mac := mac, url := none, assetsUrl := none }).timers = [] ∧
    issueOrder (legacyTrigger { mac := mac, url := none, assetsUrl := none }) = [] := by
  simp [trigger, legacyTrigger, triggerWith, truthy, issueOrder]

/-- C7, counterexample: the device id may be the empty string (the topic `device//status`
registers it), but a trigger request for it with a firmware url is answered with 400 and
publishes nothing, in both servers. -/
theorem C7_counterexample :
    (onMessage (some emptyDB) 5 6 (js "device//status") (js "online")).db
      = some { devices := [{ id := 1, mac := js "", name := some (js "Device-"),
                             status := some (js "online"), last_seen := some 6,
                             current_version := none }],
               seq := 1 } ∧
    (trigger { mac := some (js ""), url := some (js "http://h/fw.bin"),
               assetsUrl := none }).status = 400 ∧
    (trigger { mac := some (js ""), url := some (js "http://h/fw.bin"),
               assetsUrl := none }).published = [] ∧
    (legacyTrigger { mac := some (js ""), url := some (js "http://h/fw.bin"),
                     assetsUrl := none }).status = 400 ∧
    (legacyTrigger { mac := some (js ""), url := some (js "http://h/fw.bin"),
                     assetsUrl := none }).published = [] := by
  decide

/-- C7, amended: for every non-empty device id `m` and non-empty firmware url `F`, a trigger
request with `url = F` and no `assetsUrl` is accepted and produces exactly one publish in
total, on the topic `device/m/command` with the payload `{type: "ota_url", url: F}`, issued
while the route runs; no timer is registered and nothing else is sent.  Both servers agree. -/
theorem C7_firmware_only (m F : JsString) (hm : m ≠ []) (hF : F ≠ []) :
    (trigger { mac := some m, url := some F, assetsUrl := none }).status = 200 ∧
    (trigger { mac := some m, url := some F, assetsUrl := none }).published
      = [{ topic := js "device/" ++ m ++ js "/command",
           payload := { type := js "ota_url", url := F } }] ∧
    (trigger { mac := some m, url := some F, assetsUrl := none }).timers = [] ∧
    issueOrder (trigger { mac := some m, url := some F, assetsUrl := none })
      = [{ topic := js "device/" ++ m ++ js "/command",
           payload := { type := js "ota_url", url := F } }] ∧
    legacyTrigger { mac := some m, url := some F, assetsUrl := none }
      = trigger { mac := some m, url := some F, assetsUrl := none } := by
  simp [trigger, legacyTrigger, triggerWith, truthy, issueOrder, commandTopic, hm, hF]

/-- Witness of C7 amended: the device `abc` and the url `http://h/fw.bin`. -/
theorem C7_firmware_only_witness :
    (trigger { mac := some (js "abc"), url := some (js "http://h/fw.bin"),
               assetsUrl := none }).status = 200 ∧
    (trigger { mac := some (js "abc"), url := some (js "http://h/fw.bin"),
               assetsUrl := none }).published
      = [{ topic := js "device/" ++ js "abc" ++ js "/command",
           payload := { type := js "ota_url", url := js "http://h/fw.bin" } }] ∧
    (trigger { mac := some (js "abc"), url := some (js "http://h/fw.bin"),
               assetsUrl := none }).timers = [] ∧
    issueOrder (trigger { mac := some (js "abc"), url := some (js "http://h/fw.bin"),
                          assetsUrl := none })
      = [{ topic := js "device/" ++ js "abc" ++ js "/command",
           payload := { type := js "ota_url", url := js "http://h/fw.bin" } }] ∧
    legacyTrigger { mac := some (js "abc"), url := some (js "http://h/fw.bin"),
                    assetsUrl := none }
      = trigger { mac := some (js "abc"), url := some (js "http://h/fw.bin"),
                  assetsUrl := none } :=
  C7_firmware_only (js "abc") (js "http://h/fw.bin") (by decide) (by decide)

/-- C8, counterexample: with the empty device id, a request that carries both urls is
answered with 400; nothing is published and no timer is registered, in both servers. -/
theorem C8_counterexample :
    (trigger { mac := some (js ""), url := some (js "http://h/fw.bin"),
               assetsUrl := some (js "http://h/assets.bin") }).status = 400 ∧
    issueOrder (trigger { mac := some (js ""), url := some (js "http://h/fw.bin"),
                          assetsUrl := some (js "http://h/assets.bin") }) = [] ∧
    (legacyTrigger { mac := some (js ""), url := some (js "http://h/fw.bin"),
                     assetsUrl := some (js "http://h/assets.bin") }).status = 400 ∧
    issueOrder (legacyTrigger { mac := some (js ""), url := some (js "http://h/fw.bin"),
                                assetsUrl := some (js "http://h/assets.bin") }) = [] := by
  decide

/-- C8, amended: for every non-empty device id `m` and non-empty urls `F` and `A`, a trigger
request with `url = F` and `assetsUrl = A` produces exactly two publishes, both on the topic
`device/m/command`: `{type: "ota_url", url: F}` while the route runs, and
`{type: "assets_url", url: A}` on a timer of 500 ms counted from the call.  The firmware
publish is issued first; for a call at instant `t0` the firmware publish is due at `t0` and
the assets publish at `t0 + 500`, which is later.  Both servers agree. -/
theorem C8_firmware_then_assets (m F A : JsString) (t0 : Nat) (hm : m ≠ []) (hF : F ≠ [])
    (hA : A ≠ []) :
    (trigger { mac := some m, url := some F, assetsUrl := some A }).published
      = [{ topic := js "device/" ++ m ++ js "/command",
           payload := { type := js "ota_url", url := F } }] ∧
    (trigger { mac := some m, url := some F, assetsUrl := some A }).timers
      = [{ delay := 500,
           action := { topic := js "device/" ++ m ++ js "/command",
                       payload := { type := js "assets_url", url := A } } }] ∧
    issueOrder (trigger { mac := some m, url := some F, assetsUrl := some A })
      = [{ topic := js "device/" ++ m ++ js "/command",
           payload := { type := js "ota_url", url := F } },
         { topic := js "device/" ++ m ++ js "/command",
           payload := { type := js "assets_url", url := A } }] ∧
    schedule t0 (trigger { mac := some m, url := some F, assetsUrl := some A })
      = [(t0, { topic := js "device/" ++ m ++ js "/command",
                payload := { type := js "ota_url", url := F } }),
         (t0 + 500, { topic := js "device/" ++ m ++ js "/command",
                      payload := { type := js "assets_url", url := A } })] ∧
    t0 < t0 + 500 ∧
    legacyTrigger { mac := some m, url := some F, assetsUrl := some A }
      = trigger { mac := some m, url := some F, assetsUrl := some A } := by
  simp [trigger, legacyTrigger, triggerWith, truthy, issueOrder, schedule, commandTopic,
    hm, hF, hA]

/-- Witness of C8 amended: the device `aa:bb:cc` with a firmware and an assets url. -/
theorem C8_firmware_then_assets_witness :
    issueOrder (trigger { mac := some (js "aa:bb:cc"), url := some (js "http://h/fw.bin"),
                          assetsUrl := some (js "http://h/assets.bin") })
      = [{ topic := js "device/" ++ js "aa:bb:cc" ++ js "/command",
           payload := { type := js "ota_url", url := js "http://h/fw.bin" } },
         { topic := js "device/" ++ js "aa:bb:cc" ++ js "/command",
           payload := { type := js "assets_url", url := js "http://h/assets.bin" } }] ∧
    (trigger { mac := some (js "aa:bb:cc"), url := some (js "http://h/fw.bin"),
               assetsUrl := some (js "http://h/assets.bin") }).timers
      = [{ delay := 500,
           action := { topic := js "device/" ++ js "aa:bb:cc" ++ js "/command",
                       payload := { type := js "assets_url",
                                    url := js "http://h/assets.bin" } } }] :=
  have h := C8_firmware_then_assets (js "aa:bb:cc") (js "http://h/fw.bin")
    (js "http://h/assets.bin") 0 (by decide) (by decide) (by decide)
  ⟨h.2.2.1, h.2.1⟩

theorem truthy_eq_false_iff (v : Option JsString) : truthy v = false ↔ present v = [] := by
  cases v with
  | none => simp [truthy, present]
  | some s => cases s <;> simp [truthy, present]

/-- C9, counterexample: a request that carries a firmware url but no `mac` is answered with
400 and publishes nothing, in both servers, although one of the two urls is present. -/
theorem C9_counterexample :
    present (some (js "http://h/fw.bin")) ≠ [] ∧
    (trigger { mac := none, url := some (js "http://h/fw.bin"), assetsUrl := none }).status
      = 400 ∧
    issueOrder (trigger { mac := none, url := some (js "http://h/fw.bin"),
                          assetsUrl := none }) = [] ∧
    (legacyTrigger { mac := none, url := some (js "http://h/fw.bin"),
                     assetsUrl := none }).status = 400 ∧
    issueOrder (legacyTrigger { mac := none, url := some (js "http://h/fw.bin"),
                                assetsUrl := none }) = [] := by
  decide

/-- C9, amended: a trigger request fails with the validation error (HTTP 400) if and only if
`mac` is missing or empty, or both `url` and `assetsUrl` are missing or empty.  For every
request with a non-empty `mac` in which at least one of the two urls is non-empty, the request
is accepted (HTTP 200) and its publishes are issued: the firmware command while the route runs
when `url` is non-empty, the assets command on a 500 ms timer when `assetsUrl` is non-empty,
and nothing else.  Both servers agree on status, publishes and timers. -/
theorem C9_validation_iff (body : TriggerBody) :
    ((trigger body).status = 400 ↔
      (present body.mac = [] ∨ (present body.url = [] ∧ present body.assetsUrl = []))) ∧
    (∀ m, body.mac = some m → m ≠ [] →
      (present body.url ≠ [] ∨ present body.assetsUrl ≠ []) →
      (trigger body).status = 200 ∧ (trigger body).error = none ∧
      (trigger body).published = (present body.url).map (fun F =>
        { topic := js "device/" ++ m ++ js "/command",
          payload := { type := js "ota_url", url := F } }) ∧
      (trigger body).timers = (present body.assetsUrl).map (fun A =>
        { delay := 500,
          action := { topic := js "device/" ++ m ++ js "/command",
                      payload := { type := js "assets_url", url := A } } })) ∧
    (legacyTrigger body).status = (trigger body).status ∧
    (legacyTrigger body).published = (trigger body).published ∧
    (legacyTrigger body).timers = (trigger body).timers := by
  obtain ⟨mac, url, assetsUrl⟩ := body
  refine ⟨?_, ?_, ?_, ?_, ?_⟩
  · simp only [← truthy_eq_false_iff, trigger, triggerWith]
    cases truthy mac <;> cases truthy url <;> cases truthy assetsUrl <;> simp
  · intro m hmac hm hurl
    simp only at hmac
    subst hmac
    cases url with
    | none =>
      cases assetsUrl with
      | none => simp [present] at hurl
      | some A =>
        cases A with
        | nil => simp [present] at hurl
        | cons a as => simp [trigger, triggerWith, truthy, present, commandTopic, hm]
    | some F =>
      cases F with
      | nil =>
        cases assetsUrl with
        | none => simp [present] at hurl
        | some A =>
          cases A with
          | nil => simp [present] at hurl
          | cons a as => simp [trigger, triggerWith, truthy, present, commandTopic, hm]
      | cons f fs =>
        cases assetsUrl with
        | none => simp [trigger, triggerWith, truthy, present, commandTopic, hm]
        | some A =>
          cases A with
          | nil => simp [trigger, triggerWith, truthy, present, commandTopic, hm]
          | cons a as => simp [trigger, triggerWith, truthy, present, commandTopic, hm]
  · simp only [legacyTrigger, trigger, triggerWith]
    split <;> rfl
  · simp only [legacyTrigger, trigger, triggerWith]
    split <;> rfl
  · simp only [legacyTrigger, trigger, triggerWith]
    split <;> rfl

/-- Witness of C9 amended: a request for the device `abc` that carries an assets url only is
accepted; it publishes nothing while the route runs and registers one timer. -/
theorem C9_validation_iff_witness :
    (trigger { mac := some (js "abc"), url := none,
               assetsUrl := some (js "http://h/assets.bin") }).status = 200 ∧
    (trigger { mac := some (js "abc"), url := none,
               assetsUrl := some (js "http://h/assets.bin") }).published = [] ∧
    (trigger { mac := some (js "abc"), url := none,
               assetsUrl := some (js "http://h/assets.bin") }).timers
      = [{ delay := 500,
           action := { topic := js "device/" ++ js "abc" ++ js "/command",
                       payload := { type := js "assets_url",
                                    url := js "http://h/assets.bin" } } }] :=
  have h := (C9_validation_iff
    { mac := some (js "abc"), url := none, assetsUrl := some (js "http://h/assets.bin") }).2.1
    (js "abc") rfl (by decide) (Or.inr (by decide))
  ⟨h.1, h.2.2.1, h.2.2.2⟩

/-! ### Linking a device twice -/

theorem modifyFirst_append_of_absent {α : Type} (p : α → Bool) (f : α → α) (l : List α) (y : α)
    (h : ∀ x ∈ l, p x = false) (hy : p y = true) :
    modifyFirst p f (l ++ [y]) = l ++ [f y] := by
  induction l with
  | nil => simp [modifyFirst, hy]
  | cons x xs ih =>
    have hx : p x = false := h x (by simp)
    have hxs : ∀ z ∈ xs, p z = false := fun z hz => h z (by simp [hz])
    simp [modifyFirst, hx, ih hxs]

/-- `linkDevice` for an id that has no entry yet: one entry is pushed and the map is saved. -/
theorem linkDevice_of_absent (toLowerCase : JsString → JsString) (st : DatabaseManager)
    (now : Nat) (u d : JsString) (name : Option JsString)
    (habs : ∀ x ∈ st.DEVICE_MAP_CACHE, x.deviceId ≠ normalize toLowerCase d) :
    (linkDevice toLowerCase st now u d name).2 = .ok (normalize toLowerCase d) ∧
    (linkDevice toLowerCase st now u d name).1.DEVICE_MAP_CACHE = st.DEVICE_MAP_CACHE ++
      [{ deviceId := normalize toLowerCase d, ownerId := u,
         name := if truthy name then name.getD [] else js "Device " ++ normalize toLowerCase d,
         linkedAt := some now }] := by
  have hfind : st.DEVICE_MAP_CACHE.find?
      (fun x => decide (x.deviceId = normalize toLowerCase d)) = none := by
    rw [List.find?_eq_none]
    intro x hx
    simpa using habs x hx
  unfold linkDevice
  simp only [hfind, saveJSON_cache, and_self]

/-- `linkDevice` by the owner of the last entry, the only entry for the id: the entry is
renamed in place when a name is given. -/
theorem linkDevice_of_own_last (toLowerCase : JsString → JsString) (st : DatabaseManager)
    (now : Nat) (u d : JsString) (name : Option JsString) (l : List DeviceLink)
    (e : DeviceLink) (hc : st.DEVICE_MAP_CACHE = l ++ [e])
    (habs : ∀ x ∈ l, x.deviceId ≠ normalize toLowerCase d)
    (he : e.deviceId = normalize toLowerCase d) (ho : e.ownerId = u) :
    (linkDevice toLowerCase st now u d name).2 = .ok (normalize toLowerCase d) ∧
    (linkDevice toLowerCase st now u d name).1.DEVICE_MAP_CACHE =
      l ++ [{ e with name := if truthy name then name.getD [] else e.name }] := by
  have hl : ∀ x ∈ l, decide (x.deviceId = normalize toLowerCase d) = false := by
    intro x hx
    simpa using habs x hx
  have hfind : (l ++ [e]).find?
      (fun x => decide (x.deviceId = normalize toLowerCase d)) = some e := by
    rw [List.find?_append, List.find?_eq_none.2 (by simpa using hl)]
    simp [he]
  subst ho
  unfold linkDevice
  simp only [hc, hfind, ne_eq, not_true_eq_false, if_false, saveJSON_cache, true_and]
  exact modifyFirst_append_of_absent _ _ l e hl (by simp [he])

/-- C10, counterexample: the user `u1` links `ab` as `lamp` and then again with the empty
name; both calls succeed, one row is left, and its name is still `lamp`, not the second
name. -/
theorem C10_counterexample :
    (linkDevice asciiLower sampleManager 11 (js "u1") (js "ab") (some (js "lamp"))).2
      = .ok (js "ab") ∧
    (linkDevice asciiLower
      (linkDevice asciiLower sampleManager 11 (js "u1") (js "ab") (some (js "lamp"))).1
      12 (js "u1") (js "ab") (some (js ""))).2 = .ok (js "ab") ∧
    (linkDevice asciiLower
      (linkDevice asciiLower sampleManager 11 (js "u1") (js "ab") (some (js "lamp"))).1
      12 (js "u1") (js "ab") (some (js ""))).1.DEVICE_MAP_CACHE
      = [{ deviceId := js "ab", ownerId := js "u1", name := js "lamp", linkedAt := some 11 }] ∧
    js "lamp" ≠ js "" := by
  decide

/-- C10, amended: starting from a device map with no row for the normalized id of `d`, for
every user `u`, device id `d` and names `n1` and `n2`, `linkDevice(u, d, n1)` followed by
`linkDevice(u, d, n2)` succeeds both times (each returns the normalized id) and leaves the old
rows followed by exactly one row for the normalized id of `d`; its `ownerId` and `linkedAt`
are those set by the first call, and its name equals `n2` when `n2` is non-empty; when `n2` is
empty the name set by the first call is kept (`n1`, or `Device ` followed by the normalized id
when `n1` is empty as well). -/
theorem C10_relink_by_owner (toLowerCase : JsString → JsString) (st : DatabaseManager)
    (now1 now2 : Nat) (u d n1 n2 : JsString)
    (habs : ∀ x ∈ st.DEVICE_MAP_CACHE, x.deviceId ≠ normalize toLowerCase d) :
    (linkDevice toLowerCase st now1 u d (some n1)).2 = .ok (normalize toLowerCase d) ∧
    (linkDevice toLowerCase (linkDevice toLowerCase st now1 u d (some n1)).1
      now2 u d (some n2)).2 = .ok (normalize toLowerCase d) ∧
    (linkDevice toLowerCase (linkDevice toLowerCase st now1 u d (some n1)).1
      now2 u d (some n2)).1.DEVICE_MAP_CACHE
      = st.DEVICE_MAP_CACHE ++
        [{ deviceId := normalize toLowerCase d, ownerId := u,
           name := if n2 ≠ [] then n2
                   else if n1 ≠ [] then n1 else js "Device " ++ normalize toLowerCase d,
           linkedAt := some now1 }] ∧
    ((linkDevice toLowerCase (linkDevice toLowerCase st now1 u d (some n1)).1
      now2 u d (some n2)).1.DEVICE_MAP_CACHE.filter
        (fun x => x.deviceId = normalize toLowerCase d)).length = 1 := by
  obtain ⟨h1, hc1⟩ := linkDevice_of_absent toLowerCase st now1 u d (some n1) habs
  obtain ⟨h2, hc2⟩ := linkDevice_of_own_last toLowerCase
    (linkDevice toLowerCase st now1 u d (some n1)).1 now2 u d (some n2)
    st.DEVICE_MAP_CACHE _ hc1 habs rfl rfl
  have hname : ∀ n : JsString, truthy (some n) = true ↔ n ≠ [] := by
    intro n
    cases n <;> simp [truthy]
  refine ⟨h1, h2, ?_, ?_⟩
  · rw [hc2]
    simp only [hname, Option.getD_some]
  · rw [hc2, List.filter_append]
    have hnone : st.DEVICE_MAP_CACHE.filter
        (fun x => decide (x.deviceId = normalize toLowerCase d)) = [] := by
      rw [List.filter_eq_nil_iff]
      intro x hx
      simpa using habs x hx
    simp [hnone]

/-- Witness of C10 amended: the user `u1` links ` AB ` as `lamp` and then as `desk lamp`,
on a map that holds another device. -/
theorem C10_relink_by_owner_witness :
    (∀ x ∈ otherManager.DEVICE_MAP_CACHE, x.deviceId ≠ normalize asciiLower (js " AB ")) ∧
    (linkDevice asciiLower (linkDevice asciiLower otherManager 11 (js "u1") (js " AB ")
      (some (js "lamp"))).1 12 (js "u1") (js " AB ")
      (some (js "desk lamp"))).1.DEVICE_MAP_CACHE
      = otherManager.DEVICE_MAP_CACHE ++
        [{ deviceId := normalize asciiLower (js " AB "), ownerId := js "u1",
           name := if js "desk lamp" ≠ [] then js "desk lamp"
                   else if js "lamp" ≠ [] then js "lamp"
                   else js "Device " ++ normalize asciiLower (js " AB "),
           linkedAt := some 11 }] :=
  have habs : ∀ x ∈ otherManager.DEVICE_MAP_CACHE,
      x.deviceId ≠ normalize asciiLower (js " AB ") := by decide
  ⟨habs, (C10_relink_by_owner asciiLower otherManager 11 12 (js "u1") (js " AB ") (js "lamp")
    (js "desk lamp") habs).2.2.1⟩

/-! ### Linking a device that belongs to another user -/

/-- C11: for every device map in which the normalized id of `d` is linked to the owner `u1`
(it has an entry, and every entry for it is owned by `u1`), every user `u2` other than `u1` and
every name, `linkDevice(u2, d, n)` fails with the error "already owned by another user" and
returns the state exactly as it was: the same entries with the same names and owners in the
same order, and no put is sent to the bucket. -/
theorem C11_link_by_other_user_fails (toLowerCase : JsString → JsString)
    (st : DatabaseManager) (now : Nat) (u1 u2 d : JsString) (name : Option JsString)
    (hex : ∃ x ∈ st.DEVICE_MAP_CACHE, x.deviceId = normalize toLowerCase d)
    (hown : ∀ x ∈ st.DEVICE_MAP_CACHE, x.deviceId = normalize toLowerCase d → x.ownerId = u1)
    (hne : u2 ≠ u1) :
    linkDevice toLowerCase st now u2 d name = (st, .error .ownedByAnother) ∧
    (linkDevice toLowerCase st now u2 d name).1.DEVICE_MAP_CACHE = st.DEVICE_MAP_CACHE ∧
    (linkDevice toLowerCase st now u2 d name).1.puts = st.puts := by
  have hmain : linkDevice toLowerCase st now u2 d name = (st, .error .ownedByAnother) := by
    cases hfind : st.DEVICE_MAP_CACHE.find?
        (fun x => decide (x.deviceId = normalize toLowerCase d)) with
    | none =>
      obtain ⟨x, hx, hxd⟩ := hex
      have := List.find?_eq_none.1 hfind x hx
      simp [hxd] at this
    | some e =>
      have hmem : e ∈ st.DEVICE_MAP_CACHE := List.mem_of_find?_eq_some hfind
      have hid : e.deviceId = normalize toLowerCase d := by
        have := List.find?_some hfind
        simpa using this
      have ho : e.ownerId ≠ u2 := by
        rw [hown e hmem hid]
        exact fun h => hne h.symm
      unfold linkDevice
      simp only [hfind, ho, ne_eq, not_false_eq_true, if_true]
  rw [hmain]
  exact ⟨rfl, rfl, rfl⟩

/-- Witness of C11: the device `cd` belongs to `u2`; the user `u1` tries to link ` CD `. -/
theorem C11_link_by_other_user_fails_witness :
    linkDevice asciiLower otherManager 11 (js "u1") (js " CD ") (some (js "mine"))
      = (otherManager, .error .ownedByAnother) ∧
    (linkDevice asciiLower otherManager 11 (js "u1") (js " CD ")
      (some (js "mine"))).1.DEVICE_MAP_CACHE = otherManager.DEVICE_MAP_CACHE ∧
    (linkDevice asciiLower otherManager 11 (js "u1") (js " CD ") (some (js "mine"))).1.puts
      = otherManager.puts :=
  C11_link_by_other_user_fails asciiLower otherManager 11 (js "u2") (js "u1") (js " CD ")
    (some (js "mine")) (by decide) (by decide) (by decide)

/-! ### The status of a new row -/

/-- C12, counterexample: the first message of the device `cd` is a version message; no status
message has been processed, and the row it leaves has status `online`, not `offline`. -/
theorem C12_counterexample :
    selectByMac emptyDB (js "cd") = none ∧
    (onMessage (some emptyDB) 5 6 (js "device/cd/version") (js "1.0.2")).db
      = some { devices := [{ id := 1, mac := js "cd", name := some (js "Device-cd"),
                             status := some (js "online"), last_seen := some 5,
                             current_version := some (js "1.0.2") }],
               seq := 1 } ∧
    js "online" ≠ js "offline" := by
  decide

/-- C12, amended: a row created by the explicit registration route `POST /api/devices` has
status `offline`, no `last_seen` and no version; a row that the handler of fota_server_next
discovers is inserted with status `online`: for every id `X` without a row and every version
payload `v`, after `device/X/version` has been processed the row for `X` has status `online`
(and version `v`). -/
theorem C12_status_of_new_row (db : DB) (tIns tUpd : Nat) (X v : JsString)
    (name : Option JsString) (hX : slash ∉ X) (habs : ∀ r ∈ db.devices, r.mac ≠ X) :
    (∃ db1 r, (onMessage (some db) tIns tUpd (js "device/" ++ X ++ js "/version") v).db
        = some db1 ∧ db1.devices = db.devices ++ [r] ∧ r.mac = X ∧
        r.status = some (js "online") ∧ r.current_version = some v) ∧
    (∃ db1 r, postDevices (some db) (some X) name = { db := some db1, status := 200 } ∧
        db1.devices = db.devices ++ [r] ∧ r.mac = X ∧ r.name = name ∧
        r.status = some (js "offline") ∧ r.last_seen = none ∧ r.current_version = none) := by
  constructor
  · have hsplit : split slash (js "device/" ++ X ++ js "/version")
        = [js "device", X, js "version"] := by
      have e : js "/version" = js "/" ++ js "version" := by decide
      rw [e, ← List.append_assoc]
      exact split_device_topic_kind X (js "version") hX (by decide)
    have hsel := (selectByMac_eq_none_iff db X).2 habs
    rw [onMessage_unknown db tIns tUpd _ v _ X _ _ hsplit hsel]
    have hne : js "version" ≠ js "status" := by decide
    refine ⟨updateVersion (discoveredDB db X tIns) v X,
      { discoveredRow db X tIns with current_version := some v }, by simp [hne], ?_,
      rfl, rfl, rfl⟩
    have := updateVersion_of_absent db v X habs
    simp only [updateVersion] at this
    simp [updateVersion, discoveredDB, this, discoveredRow]
  · have hany : db.devices.any (fun r => decide (r.mac = X)) = false := by
      simp only [List.any_eq_false]
      intro r hr
      simpa using habs r hr
    refine ⟨{ devices := db.devices ++
                [{ id := nextRowid db, mac := X, name := name,
                   status := some (js "offline"), last_seen := none,
                   current_version := none }],
              seq := nextRowid db },
      { id := nextRowid db, mac := X, name := name, status := some (js "offline"),
        last_seen := none, current_version := none }, ?_, rfl, rfl, rfl, rfl, rfl, rfl⟩
    simp [postDevices, getDB, insertRegistered, hany]

/-- Witness of C12 amended: the device `cd` reaches the registry that holds `ab`, once by a
version message and once by explicit registration. -/
theorem C12_status_of_new_row_witness :
    (∃ db1 r, (onMessage (some registryAb) 5 6 (js "device/" ++ js "cd" ++ js "/version")
        (js "1.0.2")).db = some db1 ∧ db1.devices = registryAb.devices ++ [r] ∧
        r.mac = js "cd" ∧ r.status = some (js "online") ∧
        r.current_version = some (js "1.0.2")) ∧
    (∃ db1 r, postDevices (some registryAb) (some (js "cd")) (some (js "fan"))
        = { db := some db1, status := 200 } ∧
        db1.devices = registryAb.devices ++ [r] ∧ r.mac = js "cd" ∧
        r.name = some (js "fan") ∧ r.status = some (js "offline") ∧ r.last_seen = none ∧
        r.current_version = none) :=
  C12_status_of_new_row registryAb 5 6 (js "cd") (js "1.0.2") (some (js "fan")) (by decide)
    (by decide)

/-- C13, counterexample: the first message of the device `cd` is the status `offline`.  The
creation event is emitted before the update, so the row it carries has status `online` and
the instant of the insert, although the row after the upsert has status `offline`. -/
theorem C13_counterexample :
    selectByMac emptyDB (js "cd") = none ∧
    (onMessage (some emptyDB) 5 6 (js "device/cd/status") (js "offline")).events
      = [deviceUpdate (.row (some { id := 1, mac := js "cd", name := some (js "Device-cd"),
                                    status := some (js "online"), last_seen := some 5,
                                    current_version := none })),
         deviceUpdate (.status (js "cd") (js "offline"))] ∧
    (onMessage (some emptyDB) 5 6 (js "device/cd/status") (js "offline")).db
      = some { devices := [{ id := 1, mac := js "cd", name := some (js "Device-cd"),
                             status := some (js "offline"), last_seen := some 6,
                             current_version := none }],
               seq := 1 } ∧
    js "online" ≠ js "offline" := by
  decide

/-- C13, amended: when a status message with payload `s` arrives for an id `X` without a row,
the handler of fota_server_next emits exactly two events: first the creation event, whose
payload is the row of `X` as it is read back after the insert (the default name, that is
`Device-` followed by the last 5 code units of `X` as SQLite returns them, status `online`
whatever `s` is, `last_seen` the instant of the insert, no version), then the partial event
`{mac: X, status: s}`; the row itself ends with status `s`. -/
theorem C13_creation_event (db : DB) (tIns tUpd : Nat) (X s : JsString)
    (hX : slash ∉ X) (habs : ∀ r ∈ db.devices, r.mac ≠ X) :
    (onMessage (some db) tIns tUpd (js "device/" ++ X ++ js "/status") s).events
      = [deviceUpdate (.row (some { id := nextRowid db, mac := X,
                                    name := some (js "Device-" ++ toWellFormed (lastUnits 5 X)),
                                    status := some (js "online"), last_seen := some tIns,
                                    current_version := none })),
         deviceUpdate (.status X s)] ∧
    ∃ db1, (onMessage (some db) tIns tUpd (js "device/" ++ X ++ js "/status") s).db
        = some db1 ∧
      selectByMac db1 X = some { id := nextRowid db, mac := X,
                                 name := some (js "Device-" ++ toWellFormed (lastUnits 5 X)),
                                 status := some s, last_seen := some tUpd,
                                 current_version := none } := by
  have hsplit : split slash (js "device/" ++ X ++ js "/status")
      = [js "device", X, js "status"] := by
    have e : js "/status" = js "/" ++ js "status" := by decide
    rw [e, ← List.append_assoc]
    exact split_device_topic_kind X (js "status") hX (by decide)
  have hsel := (selectByMac_eq_none_iff db X).2 habs
  rw [onMessage_unknown db tIns tUpd _ s _ X _ _ hsplit hsel]
  rw [if_pos rfl]
  refine ⟨by simp [discoveredRow, slice_neg_five, toWellFormed_device_name],
    updateStatus (discoveredDB db X tIns) s tUpd X, rfl, ?_⟩
  rw [selectByMac_updateStatus, selectByMac_discoveredDB db X tIns hsel]
  simp [discoveredRow, slice_neg_five, toWellFormed_device_name]

/-- Witness of C13 amended: the device `cd`, unknown to the registry that holds `ab`, reports
`offline`. -/
theorem C13_creation_event_witness :
    (onMessage (some registryAb) 5 6 (js "device/" ++ js "cd" ++ js "/status")
      (js "offline")).events
      = [deviceUpdate (.row (some { id := nextRowid registryAb, mac := js "cd",
                                    name := some (js "Device-" ++
                                      toWellFormed (lastUnits 5 (js "cd"))),
                                    status := some (js "online"), last_seen := some 5,
                                    current_version := none })),
         deviceUpdate (.status (js "cd") (js "offline"))] :=
  (C13_creation_event registryAb 5 6 (js "cd") (js "offline") (by decide) (by decide)).1

/-! ### The values of `status` -/

theorem statusOk_updateStatus (db : DB) (s : JsString) (t : Nat) (X : JsString)
    (h : ∀ r ∈ db.devices, StatusOk r) (hs : s = js "online" ∨ s = js "offline") :
    ∀ r ∈ (updateStatus db s t X).devices, StatusOk r := by
  intro r hr
  simp only [updateStatus, List.mem_map] at hr
  obtain ⟨r0, hr0, rfl⟩ := hr
  by_cases hm : r0.mac = X
  · simpa [hm, StatusOk] using hs
  · simpa [hm] using h r0 hr0

theorem statusOk_updateVersion (db : DB) (v : JsString) (X : JsString)
    (h : ∀ r ∈ db.devices, StatusOk r) :
    ∀ r ∈ (updateVersion db v X).devices, StatusOk r := by
  intro r hr
  simp only [updateVersion, List.mem_map] at hr
  obtain ⟨r0, hr0, rfl⟩ := hr
  by_cases hm : r0.mac = X
  · simpa [hm, StatusOk] using h r0 hr0
  · simpa [hm] using h r0 hr0

theorem statusOk_discoveredDB (db : DB) (mac : JsString) (t : Nat)
    (h : ∀ r ∈ db.devices, StatusOk r) :
    ∀ r ∈ (discoveredDB db mac t).devices, StatusOk r := by
  intro r hr
  simp only [discoveredDB, List.mem_append, List.mem_singleton] at hr
  rcases hr with hr | rfl
  · exact h r hr
  · exact Or.inl rfl

theorem exists_segments (topic : JsString) (h3 : ¬ (split slash topic).length < 3) :
    ∃ p0 mac type rest, split slash topic = p0 :: mac :: type :: rest := by
  match hp : split slash topic with
  | [] => simp [hp] at h3
  | [_] => simp [hp] at h3
  | [_, _] => simp [hp] at h3
  | p0 :: mac :: type :: rest => exact ⟨p0, mac, type, rest, rfl⟩

theorem onMessage_statusOk (db : DB) (m : Message) (h : ∀ r ∈ db.devices, StatusOk r)
    (hp : PayloadOk m) :
    ∃ db1, (onMessage (some db) m.tIns m.tUpd m.topic m.msgStr).db = some db1 ∧
      ∀ r ∈ db1.devices, StatusOk r := by
  by_cases h3 : (split slash m.topic).length < 3
  · exact ⟨db, by simp [onMessage, h3], h⟩
  · obtain ⟨p0, mac, type, rest, hsplit⟩ := exists_segments m.topic h3
    have hp1 : type = js "status" → m.msgStr = js "online" ∨ m.msgStr = js "offline" := by
      have := hp
      simpa [PayloadOk, hsplit] using this
    cases hsel : selectByMac db mac with
    | some r0 =>
      rw [onMessage_known db m.tIns m.tUpd m.topic m.msgStr p0 mac type rest r0 hsplit hsel]
      by_cases hs : type = js "status"
      · exact ⟨updateStatus db m.msgStr m.tUpd mac, by simp [hs],
          statusOk_updateStatus db _ _ _ h (hp1 hs)⟩
      · by_cases hv : type = js "version"
        · subst hv
          exact ⟨updateVersion db m.msgStr mac, by simp [hs],
            statusOk_updateVersion db _ _ h⟩
        · exact ⟨db, by simp [hs, hv], h⟩
    | none =>
      rw [onMessage_unknown db m.tIns m.tUpd m.topic m.msgStr p0 mac type rest hsplit hsel]
      have hd := statusOk_discoveredDB db mac m.tIns h
      by_cases hs : type = js "status"
      · exact ⟨updateStatus (discoveredDB db mac m.tIns) m.msgStr m.tUpd mac, by simp [hs],
          statusOk_updateStatus _ _ _ _ hd (hp1 hs)⟩
      · by_cases hv : type = js "version"
        · subst hv
          exact ⟨updateVersion (discoveredDB db mac m.tIns) m.msgStr mac, by simp [hs],
            statusOk_updateVersion _ _ _ hd⟩
        · exact ⟨discoveredDB db mac m.tIns, by simp [hs, hv], hd⟩

/-- The legacy handler on a well-formed topic. -/
theorem legacyOnMessage_segments (db : DB) (tUpd : Nat) (topic msgStr p0 mac type : JsString)
    (rest : List JsString) (h : split slash topic = p0 :: mac :: type :: rest) :
    legacyOnMessage (some db) tUpd topic msgStr =
      if type = js "status" then
        { db := some (updateStatus db msgStr tUpd mac),
          events := [deviceUpdate (.status mac msgStr)], error := none }
      else if type = js "version" then
        { db := some (updateVersion db msgStr mac),
          events := [deviceUpdate (.version mac msgStr)], error := none }
      else { db := some db, events := [], error := none } := by
  simp [legacyOnMessage, h]

theorem legacyOnMessage_statusOk (db : DB) (m : Message) (h : ∀ r ∈ db.devices, StatusOk r)
    (hp : PayloadOk m) :
    ∃ db1, (legacyOnMessage (some db) m.tUpd m.topic m.msgStr).db = some db1 ∧
      ∀ r ∈ db1.devices, StatusOk r := by
  by_cases h3 : (split slash m.topic).length < 3
  · exact ⟨db, by simp [legacyOnMessage, h3], h⟩
  · obtain ⟨p0, mac, type, rest, hsplit⟩ := exists_segments m.topic h3
    have hp1 : type = js "status" → m.msgStr = js "online" ∨ m.msgStr = js "offline" := by
      have := hp
      simpa [PayloadOk, hsplit] using this
    rw [legacyOnMessage_segments db m.tUpd m.topic m.msgStr p0 mac type rest hsplit]
    by_cases hs : type = js "status"
    · exact ⟨updateStatus db m.msgStr m.tUpd mac, by simp [hs],
        statusOk_updateStatus db _ _ _ h (hp1 hs)⟩
    · by_cases hv : type = js "version"
      · subst hv
        exact ⟨updateVersion db m.msgStr mac, by simp [hs],
          statusOk_updateVersion db _ _ h⟩
      · exact ⟨db, by simp [hs, hv], h⟩

/-- C14, counterexample: the device `ab` has status `offline`; a status message with the
payload `foo` is stored as it is by both handlers, and `foo` is neither `online` nor
`offline`. -/
theorem C14_counterexample :
    rowAb.status = some (js "offline") ∧
    (onMessage (some registryAb) 5 6 (js "device/ab/status") (js "foo")).db
      = some { devices := [{ id := 1, mac := js "ab", name := some (js "lamp"),
                             status := some (js "foo"), last_seen := some 6,
                             current_version := none }],
               seq := 1 } ∧
    (legacyOnMessage (some registryAb) 6 (js "device/ab/status") (js "foo")).db
      = some { devices := [{ id := 1, mac := js "ab", name := some (js "lamp"),
                             status := some (js "foo"), last_seen := some 6,
                             current_version := none }],
               seq := 1 } ∧
    js "foo" ≠ js "online" ∧ js "foo" ≠ js "offline" := by
  decide

/-- C14, amended: starting from a registry in which every row has status `online` or
`offline`, after every sequence of inbound messages whose status messages carry the payload
`online` or `offline` (the payloads of other kinds being arbitrary), handled by the handler of
fota_server_next or by that of fota_server, every row still has status `online` or
`offline`. -/
theorem C14_status_values (db : DB) (msgs : List Message)
    (hdb : ∀ r ∈ db.devices, StatusOk r) (hmsgs : ∀ m ∈ msgs, PayloadOk m) :
    (∃ db1, processAll (some db) msgs = some db1 ∧ ∀ r ∈ db1.devices, StatusOk r) ∧
    (∃ db1, legacyProcessAll (some db) msgs = some db1 ∧ ∀ r ∈ db1.devices, StatusOk r) := by
  induction msgs generalizing db with
  | nil => exact ⟨⟨db, rfl, hdb⟩, ⟨db, rfl, hdb⟩⟩
  | cons m ms ih =>
    have hm : PayloadOk m := hmsgs m (by simp)
    have hms : ∀ x ∈ ms, PayloadOk x := fun x hx => hmsgs x (by simp [hx])
    obtain ⟨db1, h1, hok1⟩ := onMessage_statusOk db m hdb hm
    obtain ⟨db2, h2, hok2⟩ := legacyOnMessage_statusOk db m hdb hm
    constructor
    · simp only [processAll, h1]
      exact (ih db1 hok1 hms).1
    · simp only [legacyProcessAll, h2]
      exact (ih db2 hok2 hms).2

/-- Witness of C14 amended: the three sample messages on the registry that holds `ab`. -/
theorem C14_status_values_witness :
    (∃ db1, processAll (some registryAb) sampleMessages = some db1 ∧
      ∀ r ∈ db1.devices, StatusOk r) ∧
    (∃ db1, legacyProcessAll (some registryAb) sampleMessages = some db1 ∧
      ∀ r ∈ db1.devices, StatusOk r) :=
  C14_status_values registryAb sampleMessages
    (by simp [registryAb, rowAb, StatusOk])
    (by simp only [sampleMessages, PayloadOk]; decide)

/-! ### Ids as they are stored -/

theorem selectByMac_eq_none_iff_macs (db : DB) (mac : JsString) :
    selectByMac db mac = none ↔ mac ∉ db.devices.map (fun r => r.mac) := by
  rw [selectByMac_eq_none_iff]
  simp only [List.mem_map, not_exists, not_and]

/-- The `mac` values after one handler invocation on a well-formed topic: the old ones in
their order, followed by segment 1 as received when it had no row. -/
theorem onMessage_macs (db : DB) (tIns tUpd : Nat) (topic msgStr : JsString)
    (h3 : 3 ≤ (split slash topic).length) :
    ∃ db1, (onMessage (some db) tIns tUpd topic msgStr).db = some db1 ∧
      db1.devices.map (fun r => r.mac) = db.devices.map (fun r => r.mac) ++
        (if selectByMac db ((split slash topic).getD 1 []) = none
          then [(split slash topic).getD 1 []] else []) := by
  obtain ⟨p0, mac, type, rest, hsplit⟩ := exists_segments topic (by omega)
  rw [hsplit]
  simp only [List.getD_cons_succ, List.getD_cons_zero]
  have hdisc : (discoveredDB db mac tIns).devices.map (fun r => r.mac)
      = db.devices.map (fun r => r.mac) ++ [mac] := by
    simp [discoveredDB, discoveredRow]
  cases hsel : selectByMac db mac with
  | some r0 =>
    rw [onMessage_known db tIns tUpd topic msgStr p0 mac type rest r0 hsplit hsel]
    by_cases hs : type = js "status"
    · exact ⟨updateStatus db msgStr tUpd mac, by simp [hs], by simp [updateStatus_macs]⟩
    · by_cases hv : type = js "version"
      · subst hv
        exact ⟨updateVersion db msgStr mac, by simp [hs], by simp [updateVersion_macs]⟩
      · exact ⟨db, by simp [hs, hv], by simp⟩
  | none =>
    rw [onMessage_unknown db tIns tUpd topic msgStr p0 mac type rest hsplit hsel]
    by_cases hs : type = js "status"
    · exact ⟨updateStatus (discoveredDB db mac tIns) msgStr tUpd mac, by simp [hs],
        by simp [updateStatus_macs, hdisc]⟩
    · by_cases hv : type = js "version"
      · subst hv
        exact ⟨updateVersion (discoveredDB db mac tIns) msgStr mac, by simp [hs],
          by simp [updateVersion_macs, hdisc]⟩
      · exact ⟨discoveredDB db mac tIns, by simp [hs, hv], by simp [hdisc]⟩

/-- C15, counterexample: the topics `device/AB/status` and `device/ab/status` reach the empty
registry one after the other.  The first row keeps the id `AB`, which is not its lower-cased
trimmed form `ab`, and the second topic creates a second row instead of updating the
first. -/
theorem C15_counterexample :
    processAll (some emptyDB)
      [{ tIns := 5, tUpd := 6, topic := js "device/AB/status", msgStr := js "online" },
       { tIns := 7, tUpd := 8, topic := js "device/ab/status", msgStr := js "offline" }]
      = some { devices := [{ id := 1, mac := js "AB", name := some (js "Device-AB"),
                             status := some (js "online"), last_seen := some 6,
                             current_version := none },
                           { id := 2, mac := js "ab", name := some (js "Device-ab"),
                             status := some (js "offline"), last_seen := some 8,
                             current_version := none }],
               seq := 2 } ∧
    normalize asciiLower (js "AB") = js "ab" ∧ normalize asciiLower (js "ab") = js "ab" ∧
    js "AB" ≠ js "ab" := by
  decide

/-- C15, amended: every row the handler of fota_server_next writes keeps as its id the device
segment exactly as it was received in the topic, without lower-casing or trimming: after a
message on a topic with at least 3 segments the ids in the registry are the old ids, followed
by segment 1 as received when it had no row.  Consequently two topics `device/X/status` and
`device/Y/status` whose device segments differ (be it only in letter case or surrounding white
space) and have no row yet create two rows, one with id `X` and one with id `Y`. -/
theorem C15_ids_stored_as_received (db : DB) (tIns tUpd tIns2 tUpd2 : Nat)
    (topic msgStr X Y s1 s2 : JsString) (h3 : 3 ≤ (split slash topic).length)
    (hX : slash ∉ X) (hY : slash ∉ Y) (hXY : X ≠ Y)
    (habsX : ∀ r ∈ db.devices, r.mac ≠ X) (habsY : ∀ r ∈ db.devices, r.mac ≠ Y) :
    (∃ db1, (onMessage (some db) tIns tUpd topic msgStr).db = some db1 ∧
      db1.devices.map (fun r => r.mac) = db.devices.map (fun r => r.mac) ++
        (if selectByMac db ((split slash topic).getD 1 []) = none
          then [(split slash topic).getD 1 []] else [])) ∧
    (∃ db2, processAll (some db)
        [{ tIns := tIns, tUpd := tUpd, topic := js "device/" ++ X ++ js "/status",
           msgStr := s1 },
         { tIns := tIns2, tUpd := tUpd2, topic := js "device/" ++ Y ++ js "/status",
           msgStr := s2 }] = some db2 ∧
      db2.devices.map (fun r => r.mac) = db.devices.map (fun r => r.mac) ++ [X, Y]) := by
  refine ⟨onMessage_macs db tIns tUpd topic msgStr h3, ?_⟩
  have hsplit : ∀ Z : JsString, slash ∉ Z →
      split slash (js "device/" ++ Z ++ js "/status") = [js "device", Z, js "status"] := by
    intro Z hZ
    have e : js "/status" = js "/" ++ js "status" := by decide
    rw [e, ← List.append_assoc]
    exact split_device_topic_kind Z (js "status") hZ (by decide)
  obtain ⟨db1, h1, hm1⟩ := onMessage_macs db tIns tUpd (js "device/" ++ X ++ js "/status") s1
    (by rw [hsplit X hX]; simp)
  obtain ⟨db2, h2, hm2⟩ := onMessage_macs db1 tIns2 tUpd2 (js "device/" ++ Y ++ js "/status") s2
    (by rw [hsplit Y hY]; simp)
  simp only [hsplit X hX, List.getD_cons_succ, List.getD_cons_zero,
    (selectByMac_eq_none_iff db X).2 habsX, if_true] at hm1
  have hselY : selectByMac db1 Y = none := by
    rw [selectByMac_eq_none_iff_macs, hm1]
    simp only [List.mem_append, List.mem_map, List.mem_singleton, not_or]
    exact ⟨fun ⟨r, hr, hrY⟩ => habsY r hr hrY, fun h => hXY h.symm⟩
  simp only [hsplit Y hY, List.getD_cons_succ, List.getD_cons_zero, hselY, if_true] at hm2
  refine ⟨db2, ?_, ?_⟩
  · simp only [processAll, h1, h2]
  · rw [hm2, hm1]
    simp

/-- Witness of C15 amended: the devices ` ab` and `ab` on the empty registry. -/
theorem C15_ids_stored_as_received_witness :
    ∃ db2, processAll (some emptyDB)
        [{ tIns := 5, tUpd := 6, topic := js "device/" ++ js " ab" ++ js "/status",
           msgStr := js "online" },
         { tIns := 7, tUpd := 8, topic := js "device/" ++ js "ab" ++ js "/status",
           msgStr := js "online" }] = some db2 ∧
      db2.devices.map (fun r => r.mac)
        = emptyDB.devices.map (fun r => r.mac) ++ [js " ab", js "ab"] :=
  (C15_ids_stored_as_received emptyDB 5 6 7 8 (js "device/ab/foo") (js "x") (js " ab")
    (js "ab") (js "online") (js "online") (by decide) (by decide) (by decide) (by decide)
    (by decide) (by decide)).2

/-! ### Version messages and update events -/

theorem selectByMac_updateVersion (db : DB) (v : JsString) (X : JsString) :
    selectByMac (updateVersion db v X) X =
      (selectByMac db X).map (fun r => { r with current_version := some v }) := by
  unfold selectByMac updateVersion
  simp only [List.find?_map]
  have hp : ((fun r : DeviceRow => decide (r.mac = X)) ∘ fun r : DeviceRow =>
      if r.mac = X then { r with current_version := some v } else r)
      = fun r : DeviceRow => decide (r.mac = X) := by
    funext r
    by_cases h : r.mac = X <;> simp [h]
  rw [hp]
  cases hf : List.find? (fun r : DeviceRow => decide (r.mac = X)) db.devices with
  | none => rfl
  | some r =>
    have := List.find?_some hf
    simp at this
    simp [this]

theorem split_status_topic (X : JsString) (hX : slash ∉ X) :
    split slash (js "device/" ++ X ++ js "/status") = [js "device", X, js "status"] := by
  have e : js "/status" = js "/" ++ js "status" := by decide
  rw [e, ← List.append_assoc]
  exact split_device_topic_kind X (js "status") hX (by decide)

theorem split_version_topic (X : JsString) (hX : slash ∉ X) :
    split slash (js "device/" ++ X ++ js "/version") = [js "device", X, js "version"] := by
  have e : js "/version" = js "/" ++ js "version" := by decide
  rw [e, ← List.append_assoc]
  exact split_device_topic_kind X (js "version") hX (by decide)

/-- C16: for every registry state, id `X` (a string without a solidus) and payload `v`, after
the handler of fota_server_next has processed `device/X/version` with payload `v`, the row
found for `X` exists and has `current_version = v`, and the event `device_update` with the
payload `{mac: X, current_version: v}` has been emitted, as the last event.  When `X` already
had a row, that event is the only one, and the table has the same rows in the same order,
each with its id, mac, name, status and `last_seen` unchanged: a row of another device is
unchanged altogether and a row of `X` differs in `current_version` only. -/
theorem C16_version_message (db : DB) (tIns tUpd : Nat) (X v : JsString) (hX : slash ∉ X) :
    ∃ db1, (onMessage (some db) tIns tUpd (js "device/" ++ X ++ js "/version") v).db
        = some db1 ∧
      (∃ r, selectByMac db1 X = some r ∧ r.mac = X ∧ r.current_version = some v) ∧
      (onMessage (some db) tIns tUpd (js "device/" ++ X ++ js "/version") v).events.getLast?
        = some { name := js "device_update", payload := .version X v } ∧
      ((∃ r ∈ db.devices, r.mac = X) →
        (onMessage (some db) tIns tUpd (js "device/" ++ X ++ js "/version") v).events
          = [{ name := js "device_update", payload := .version X v }] ∧
        db1.seq = db.seq ∧
        List.Forall₂ (fun old new : DeviceRow =>
            new.id = old.id ∧ new.mac = old.mac ∧ new.name = old.name ∧
            new.status = old.status ∧ new.last_seen = old.last_seen ∧
            (old.mac ≠ X → new = old) ∧ (old.mac = X → new.current_version = some v))
          db.devices db1.devices) := by
  have hsplit := split_version_topic X hX
  have hne : js "version" ≠ js "status" := by decide
  cases hsel : selectByMac db X with
  | some r0 =>
    rw [onMessage_known db tIns tUpd _ v _ X _ _ r0 hsplit hsel]
    simp only [hne, if_false, if_true]
    have hm : r0.mac = X := by
      have := List.find?_some hsel
      simpa using this
    refine ⟨updateVersion db v X, rfl,
      ⟨{ r0 with current_version := some v }, by rw [selectByMac_updateVersion, hsel]; rfl,
        hm, rfl⟩, rfl, fun _ => ⟨rfl, rfl, ?_⟩⟩
    simp only [updateVersion, List.forall₂_map_right_iff]
    apply List.forall₂_same.2
    intro r _
    by_cases h : r.mac = X <;> simp [h]
  | none =>
    rw [onMessage_unknown db tIns tUpd _ v _ X _ _ hsplit hsel]
    simp only [hne, if_false, if_true]
    refine ⟨updateVersion (discoveredDB db X tIns) v X, rfl,
      ⟨{ discoveredRow db X tIns with current_version := some v },
        by rw [selectByMac_updateVersion, selectByMac_discoveredDB db X tIns hsel]; rfl,
        rfl, rfl⟩, rfl, ?_⟩
    rintro ⟨r, hr, hrX⟩
    exact absurd hrX ((selectByMac_eq_none_iff db X).1 hsel r hr)

/-- Witness of C16: the known device `ab` reports the version `1.0.2`. -/
theorem C16_version_message_witness :
    (∃ r ∈ registryAb.devices, r.mac = js "ab") ∧
    ∃ db1, (onMessage (some registryAb) 5 6 (js "device/" ++ js "ab" ++ js "/version")
        (js "1.0.2")).db = some db1 ∧
      (∃ r, selectByMac db1 (js "ab") = some r ∧ r.mac = js "ab" ∧
        r.current_version = some (js "1.0.2")) ∧
      (onMessage (some registryAb) 5 6 (js "device/" ++ js "ab" ++ js "/version")
        (js "1.0.2")).events
          = [{ name := js "device_update", payload := .version (js "ab") (js "1.0.2") }] :=
  have hex : ∃ r ∈ registryAb.devices, r.mac = js "ab" := ⟨rowAb, by simp [registryAb], rfl⟩
  match C16_version_message registryAb 5 6 (js "ab") (js "1.0.2") (by decide) with
  | ⟨db1, h1, h2, _, h4⟩ => ⟨hex, db1, h1, h2, (h4 hex).1⟩

/-- C17: for every registry state that already holds a row for `X` (a string without a
solidus) and every payload `s`, processing `device/X/status` with payload `s` emits exactly
one event, named `device_update`, whose payload is the partial record `{mac: X, status: s}`;
no creation event is emitted.  This holds for the handler of fota_server_next and for that of
fota_server. -/
theorem C17_status_update_event (db : DB) (tIns tUpd : Nat) (X s : JsString)
    (hX : slash ∉ X) (hex : ∃ r ∈ db.devices, r.mac = X) :
    (onMessage (some db) tIns tUpd (js "device/" ++ X ++ js "/status") s).events
      = [{ name := js "device_update", payload := .status X s }] ∧
    (legacyOnMessage (some db) tUpd (js "device/" ++ X ++ js "/status") s).events
      = [{ name := js "device_update", payload := .status X s }] := by
  have hsplit := split_status_topic X hX
  constructor
  · cases hsel : selectByMac db X with
    | some r0 =>
      rw [onMessage_known db tIns tUpd _ s _ X _ _ r0 hsplit hsel]
      simp [deviceUpdate]
    | none =>
      obtain ⟨r, hr, hrX⟩ := hex
      exact absurd hrX ((selectByMac_eq_none_iff db X).1 hsel r hr)
  · rw [legacyOnMessage_segments db tUpd _ s _ X _ _ hsplit]
    simp [deviceUpdate]

/-- Witness of C17: the known device `ab` reports `online`. -/
theorem C17_status_update_event_witness :
    (onMessage (some registryAb) 5 6 (js "device/" ++ js "ab" ++ js "/status")
      (js "online")).events
      = [{ name := js "device_update", payload := .status (js "ab") (js "online") }] ∧
    (legacyOnMessage (some registryAb) 6 (js "device/" ++ js "ab" ++ js "/status")
      (js "online")).events
      = [{ name := js "device_update", payload := .status (js "ab") (js "online") }] :=
  C17_status_update_event registryAb 5 6 (js "ab") (js "online") (by decide)
    ⟨rowAb, by simp [registryAb], rfl⟩

/-! ### The topic routing -/

theorem not_mem_of_mem_split (sep : CodeUnit) (s : JsString) :
    ∀ p ∈ split sep s, sep ∉ p := by
  induction s with
  | nil => simp [split]
  | cons c cs ih =>
    unfold split
    by_cases hc : c = sep
    · simp only [hc, if_true, List.mem_cons]
      rintro p (rfl | hp)
      · simp
      · exact ih p hp
    · simp only [hc, if_false]
      cases hs : split sep cs with
      | nil => exact absurd hs (split_ne_nil sep cs)
      | cons q qs =>
        rw [hs] at ih
        simp only [List.mem_cons]
        rintro p (rfl | hp)
        · simp only [List.mem_cons, not_or]
          exact ⟨fun h => hc h.symm, ih q (by simp)⟩
        · exact ih p (by simp [hp])

/-- The two handlers look at the topic only through the guard and segments 1 and 2. -/
theorem handlers_congr (db? : Option DB) (tIns tUpd : Nat) (topic topic1 msgStr : JsString)
    (hlen : (split slash topic).length < 3 ↔ (split slash topic1).length < 3)
    (h1 : (split slash topic).getD 1 [] = (split slash topic1).getD 1 [])
    (h2 : (split slash topic).getD 2 [] = (split slash topic1).getD 2 []) :
    onMessage db? tIns tUpd topic msgStr = onMessage db? tIns tUpd topic1 msgStr ∧
    legacyOnMessage db? tUpd topic msgStr = legacyOnMessage db? tUpd topic1 msgStr := by
  unfold onMessage legacyOnMessage
  simp only [h1, h2, hlen]
  trivial

/-- C18: for every topic that splits on the solidus into at least 3 segments, both handlers
take segment 1 as the device id and segment 2 as the message kind, and nothing else of the
topic matters.  On an open database the handler of fota_server does exactly this: when
segment 2 is `status` it sets the status of the row whose `mac` is segment 1 and emits
`{mac: segment 1, status}`, when segment 2 is `version` it sets the version of that row and
emits `{mac: segment 1, version}`, otherwise it does nothing.  The handler of fota_server_next
does the same when segment 1 has a row; when it has none it first inserts the row with `mac`
segment 1, emits it, and then proceeds by segment 2 in the same way.  Hence each handler does
on the topic what it does on `device/<segment 1>/<segment 2>`, whatever segment 0 and the
segments after segment 2 are.  In particular, for all strings `id` and `kind` without a
solidus, the topic `device/` + `id` + `/` + `kind` is classified as `(id, kind)`, and the
legacy handler acts on it on the row of `id` according to `kind`. -/
theorem C18_topic_routing (db? : Option DB) (db : DB) (tIns tUpd : Nat)
    (topic msgStr id kind : JsString)
    (h3 : 3 ≤ (split slash topic).length) (hid : slash ∉ id) (hkind : slash ∉ kind) :
    classify topic = some ((split slash topic).getD 1 [], (split slash topic).getD 2 []) ∧
    legacyOnMessage (some db) tUpd topic msgStr
      = (if (split slash topic).getD 2 [] = js "status" then
          { db := some (updateStatus db msgStr tUpd ((split slash topic).getD 1 [])),
            events := [deviceUpdate (.status ((split slash topic).getD 1 []) msgStr)],
            error := none }
        else if (split slash topic).getD 2 [] = js "version" then
          { db := some (updateVersion db msgStr ((split slash topic).getD 1 [])),
            events := [deviceUpdate (.version ((split slash topic).getD 1 []) msgStr)],
            error := none }
        else { db := some db, events := [], error := none }) ∧
    onMessage (some db) tIns tUpd topic msgStr
      = (if (selectByMac db ((split slash topic).getD 1 [])).isSome then
          if (split slash topic).getD 2 [] = js "status" then
            { db := some (updateStatus db msgStr tUpd ((split slash topic).getD 1 [])),
              events := [deviceUpdate (.status ((split slash topic).getD 1 []) msgStr)],
              error := none }
          else if (split slash topic).getD 2 [] = js "version" then
            { db := some (updateVersion db msgStr ((split slash topic).getD 1 [])),
              events := [deviceUpdate (.version ((split slash topic).getD 1 []) msgStr)],
              error := none }
          else { db := some db, events := [], error := none }
        else
          if (split slash topic).getD 2 [] = js "status" then
            { db := some (updateStatus (discoveredDB db ((split slash topic).getD 1 []) tIns)
                msgStr tUpd ((split slash topic).getD 1 [])),
              events := [deviceUpdate (.row (some
                           (discoveredRow db ((split slash topic).getD 1 []) tIns))),
                         deviceUpdate (.status ((split slash topic).getD 1 []) msgStr)],
              error := none }
          else if (split slash topic).getD 2 [] = js "version" then
            { db := some (updateVersion (discoveredDB db ((split slash topic).getD 1 []) tIns)
                msgStr ((split slash topic).getD 1 [])),
              events := [deviceUpdate (.row (some
                           (discoveredRow db ((split slash topic).getD 1 []) tIns))),
                         deviceUpdate (.version ((split slash topic).getD 1 []) msgStr)],
              error := none }
          else
            { db := some (discoveredDB db ((split slash topic).getD 1 []) tIns),
              events := [deviceUpdate (.row (some
                           (discoveredRow db ((split slash topic).getD 1 []) tIns)))],
              error := none }) ∧
    onMessage db? tIns tUpd topic msgStr
      = onMessage db? tIns tUpd (js "device/" ++ (split slash topic).getD 1 [] ++ js "/" ++
          (split slash topic).getD 2 []) msgStr ∧
    legacyOnMessage db? tUpd topic msgStr
      = legacyOnMessage db? tUpd (js "device/" ++ (split slash topic).getD 1 [] ++ js "/" ++
          (split slash topic).getD 2 []) msgStr ∧
    classify (js "device/" ++ id ++ js "/" ++ kind) = some (id, kind) ∧
    legacyOnMessage (some db) tUpd (js "device/" ++ id ++ js "/" ++ kind) msgStr
      = (if kind = js "status" then
          { db := some (updateStatus db msgStr tUpd id),
            events := [deviceUpdate (.status id msgStr)], error := none }
        else if kind = js "version" then
          { db := some (updateVersion db msgStr id),
            events := [deviceUpdate (.version id msgStr)], error := none }
        else { db := some db, events := [], error := none }) := by
  obtain ⟨p0, mac, type, rest, hsplit⟩ := exists_segments topic (by omega)
  have hmem := not_mem_of_mem_split slash topic
  rw [hsplit] at hmem
  have hmac : slash ∉ mac := hmem mac (by simp)
  have htype : slash ∉ type := hmem type (by simp)
  have hcanon := split_device_topic_kind mac type hmac htype
  have hc := handlers_congr db? tIns tUpd topic (js "device/" ++ mac ++ js "/" ++ type) msgStr
    (by rw [hsplit, hcanon]; simp) (by rw [hsplit, hcanon]; rfl) (by rw [hsplit, hcanon]; rfl)
  have e1 : (split slash topic).getD 1 [] = mac := by rw [hsplit]; rfl
  have e2 : (split slash topic).getD 2 [] = type := by rw [hsplit]; rfl
  rw [e1, e2]
  refine ⟨?_, ?_, ?_, hc.1, hc.2, ?_, ?_⟩
  · simp [classify, hsplit]
  · exact legacyOnMessage_segments db tUpd topic msgStr p0 mac type rest hsplit
  · cases hsel : selectByMac db mac with
    | some r =>
      rw [onMessage_known db tIns tUpd topic msgStr p0 mac type rest r hsplit hsel]
      simp
    | none =>
      rw [onMessage_unknown db tIns tUpd topic msgStr p0 mac type rest hsplit hsel]
      simp
  · unfold classify
    rw [split_device_topic_kind id kind hid hkind]
    rfl
  · exact legacyOnMessage_segments db tUpd _ msgStr (js "device") id kind []
      (split_device_topic_kind id kind hid hkind)

/-- Witness of C18: on the registry that holds `ab`, the topic `home/ab/status/extra/x` with
payload `offline` sets the status of the row `ab` in both handlers, whatever segment 0 and the
segments after segment 2 are; the topic `device/cd/status` is classified as `(cd, status)`,
and the handler of fota_server, which finds no row `cd` to update, emits the status of
`cd`. -/
theorem C18_topic_routing_witness :
    classify (js "home/ab/status/extra/x") = some (js "ab", js "status") ∧
    legacyOnMessage (some registryAb) 6 (js "home/ab/status/extra/x") (js "offline")
      = { db := some { devices := [{ rowAb with status := some (js "offline"),
                                                last_seen := some 6 }], seq := 1 },
          events := [deviceUpdate (.status (js "ab") (js "offline"))], error := none } ∧
    onMessage (some registryAb) 5 6 (js "home/ab/status/extra/x") (js "offline")
      = { db := some { devices := [{ rowAb with status := some (js "offline"),
                                                last_seen := some 6 }], seq := 1 },
          events := [deviceUpdate (.status (js "ab") (js "offline"))], error := none } ∧
    onMessage (some registryAb) 5 6 (js "home/ab/status/extra/x") (js "offline")
      = onMessage (some registryAb) 5 6 (js "device/ab/status") (js "offline") ∧
    classify (js "device/" ++ js "cd" ++ js "/" ++ js "status") = some (js "cd", js "status") ∧
    legacyOnMessage (some registryAb) 6 (js "device/" ++ js "cd" ++ js "/" ++ js "status")
        (js "offline")
      = { db := some registryAb, events := [deviceUpdate (.status (js "cd") (js "offline"))],
          error := none } :=
  have h := C18_topic_routing (some registryAb) registryAb 5 6 (js "home/ab/status/extra/x")
    (js "offline") (js "cd") (js "status") (by decide) (by decide) (by decide)
  ⟨h.1.trans (by decide), h.2.1.trans (by decide), h.2.2.1.trans (by decide),
    h.2.2.2.1.trans (by decide), h.2.2.2.2.2.1, h.2.2.2.2.2.2.trans (by decide)⟩

/-! ### Invocations that overlap -/

/-- An invocation stepped on its own from its start performs exactly what `onMessage`
describes: the same database, the same events, and the error logged is the one reported; four
steps bring it to its end. -/
theorem stepN_four_eq_onMessage (db? : Option DB) (m : Message) :
    (stepN 4 ({ db := db?, events := [], errors := [] }, { msg := m, pc := .selectId })).1
      = { db := (onMessage db? m.tIns m.tUpd m.topic m.msgStr).db,
          events := (onMessage db? m.tIns m.tUpd m.topic m.msgStr).events,
          errors := (onMessage db? m.tIns m.tUpd m.topic m.msgStr).error.toList } ∧
    (stepN 4 ({ db := db?, events := [], errors := [] },
      { msg := m, pc := .selectId })).2.pc = .done := by
  by_cases h3 : (split slash m.topic).length < 3
  · simp [stepN, stepTask, onMessage, h3]
  · cases db? with
    | none => simp [stepN, stepTask, onMessage, h3, getDB]
    | some db =>
      obtain ⟨p0, mac, type, rest, hsplit⟩ := exists_segments m.topic h3
      have hlen : ¬ (rest.length + 1 + 1 + 1 < 3) := by omega
      cases hsel : selectByMac db mac with
      | some r0 =>
        rw [onMessage_known db m.tIns m.tUpd m.topic m.msgStr p0 mac type rest r0 hsplit hsel]
        by_cases hs : type = js "status"
        · simp [stepN, stepTask, hsplit, hlen, getDB, selectIdByMac, hsel, hs]
        · by_cases hv : type = js "version"
          · subst hv
            simp [stepN, stepTask, hsplit, hlen, getDB, selectIdByMac, hsel, hs]
          · simp [stepN, stepTask, hsplit, hlen, getDB, selectIdByMac, hsel, hs, hv]
      | none =>
        rw [onMessage_unknown db m.tIns m.tUpd m.topic m.msgStr p0 mac type rest hsplit hsel]
        by_cases hs : type = js "status"
        · simp [stepN, stepTask, hsplit, hlen, getDB, selectIdByMac, hsel, hs,
            insertDevice_of_absent, selectByMac_discoveredDB]
        · by_cases hv : type = js "version"
          · subst hv
            simp [stepN, stepTask, hsplit, hlen, getDB, selectIdByMac, hsel, hs,
              insertDevice_of_absent, selectByMac_discoveredDB]
          · simp [stepN, stepTask, hsplit, hlen, getDB, selectIdByMac, hsel, hs, hv,
              insertDevice_of_absent, selectByMac_discoveredDB]

/-- C19, the code at the failing schedule: the first status message and the first version
message of the unknown device `cd` are handled by two invocations that both run their
`SELECT id` before either runs its `INSERT`.  The second `INSERT` violates the `UNIQUE`
constraint, the `catch` logs the error and the second invocation ends without its `UPDATE` and
without its event: the row is created once, but it has no version.  Handled one after the
other, in either order, the two messages leave the row with the version `1.0.2`. -/
theorem C19_overlapping_first_messages :
    interleave { db := some emptyDB, events := [], errors := [] }
        { msg := firstStatus, pc := .selectId } { msg := firstVersion, pc := .selectId }
        racingSchedule
      = ({ db := some { devices := [{ id := 1, mac := js "cd", name := some (js "Device-cd"),
                                      status := some (js "online"), last_seen := some 6,
                                      current_version := none }],
                        seq := 1 },
           events := [deviceUpdate (.row (some { id := 1, mac := js "cd",
                                                 name := some (js "Device-cd"),
                                                 status := some (js "online"),
                                                 last_seen := some 5,
                                                 current_version := none })),
                      deviceUpdate (.status (js "cd") (js "online"))],
           errors := [.sqliteConstraint] },
         { msg := firstStatus, pc := .done }, { msg := firstVersion, pc := .done }) ∧
    processAll (some emptyDB) [firstStatus, firstVersion]
      = some { devices := [{ id := 1, mac := js "cd", name := some (js "Device-cd"),
                             status := some (js "online"), last_seen := some 6,
                             current_version := some (js "1.0.2") }],
               seq := 1 } ∧
    processAll (some emptyDB) [firstVersion, firstStatus]
      = some { devices := [{ id := 1, mac := js "cd", name := some (js "Device-cd"),
                             status := some (js "online"), last_seen := some 6,
                             current_version := some (js "1.0.2") }],
               seq := 1 } ∧
    (interleave { db := some emptyDB, events := [], errors := [] }
        { msg := firstStatus, pc := .selectId } { msg := firstVersion, pc := .selectId }
        racingSchedule).1.db ≠ processAll (some emptyDB) [firstStatus, firstVersion] ∧
    (interleave { db := some emptyDB, events := [], errors := [] }
        { msg := firstStatus, pc := .selectId } { msg := firstVersion, pc := .selectId }
        racingSchedule).1.db ≠ processAll (some emptyDB) [firstVersion, firstStatus] := by
  decide

/-! ### The history of sessions -/

/-- C20: `addHistory` keeps only the last 50 sessions, newest first.  With storage enabled,
for every history list `h` stored for the device and every session record `s`, the list that
`addHistory(deviceId, s)` saves (under the key `history/<lower-cased id>.json`) is the first
50 elements of `s` prepended to `h`; its length is `min (length h + 1) 50`, its first element
is `s`, and the older records it retains are the first 49 of `h`, in their order. -/
theorem C20_history_keeps_last_50 {σ : Type} (toLowerCase : JsString → JsString)
    (bucket : JsString → Option (List σ)) (deviceId : JsString) (s : σ) (h : List σ)
    (hstored : bucket (js "history/" ++ toLowerCase deviceId ++ js ".json") = some h) :
    ∃ saved, addHistory toLowerCase true bucket deviceId s
        = some (js "history/" ++ toLowerCase deviceId ++ js ".json", saved) ∧
      saved = (s :: h).take 50 ∧
      saved.length = min (h.length + 1) 50 ∧
      saved.head? = some s ∧
      saved.tail = h.take 49 ∧
      saved.tail <+: h := by
  refine ⟨(s :: h).take 50, ?_, rfl, ?_, ?_, ?_, ?_⟩
  · unfold addHistory _readJSON
    simp only [Bool.not_true, Bool.false_eq_true, if_false, hstored]
    by_cases hl : (s :: h).length > 50
    · simp [hl]
    · simp only [hl, if_false]
      rw [List.take_of_length_le (by omega)]
  · simp only [List.length_take, List.length_cons]
    omega
  · simp
  · simp
  · simp only [List.take_succ_cons, List.tail_cons]
    exact List.take_prefix 49 h

/-- Witness of C20: the session 99 is added to a stored history of 50 sessions. -/
theorem C20_history_keeps_last_50_witness :
    ∃ saved, addHistory asciiLower true fullBucket (js "AB") 99
        = some (js "history/" ++ asciiLower (js "AB") ++ js ".json", saved) ∧
      saved = (99 :: List.range 50).take 50 ∧
      saved.length = min ((List.range 50).length + 1) 50 ∧
      saved.head? = some 99 ∧
      saved.tail = (List.range 50).take 49 ∧
      saved.tail <+: List.range 50 :=
  C20_history_keeps_last_50 asciiLower fullBucket (js "AB") 99 (List.range 50) rfl

/-! ### Removing a device -/

/-- C21: `removeDevice` enforces strict ownership.  For every device map, user `u` and device
id `d`, the map after `removeDevice(u, d)` is a sublist of the map before (the rows kept are
unchanged and in their order); it holds no row whose `deviceId` is the trimmed lower-cased `d`
and whose `ownerId` is `u`, and every other row as often as before.  The call returns `true`
exactly when at least one row was removed, and it writes the map to the bucket only then.  A
call by a user who owns no row for the id removes nothing, saves nothing and returns
`false`. -/
theorem C21_remove_strict_ownership (toLowerCase : JsString → JsString) (st : DatabaseManager)
    (u d : JsString) :
    List.Sublist (removeDevice toLowerCase st u d).1.DEVICE_MAP_CACHE st.DEVICE_MAP_CACHE ∧
    (∀ x ∈ (removeDevice toLowerCase st u d).1.DEVICE_MAP_CACHE,
      ¬ (x.deviceId = normalize toLowerCase d ∧ x.ownerId = u)) ∧
    (∀ x : DeviceLink, ¬ (x.deviceId = normalize toLowerCase d ∧ x.ownerId = u) →
      (removeDevice toLowerCase st u d).1.DEVICE_MAP_CACHE.count x
        = st.DEVICE_MAP_CACHE.count x) ∧
    ((removeDevice toLowerCase st u d).2 = true ↔
      ∃ x ∈ st.DEVICE_MAP_CACHE, x.deviceId = normalize toLowerCase d ∧ x.ownerId = u) ∧
    ((removeDevice toLowerCase st u d).2 = false →
      (removeDevice toLowerCase st u d).1 = st) ∧
    ((∀ x ∈ st.DEVICE_MAP_CACHE, x.deviceId = normalize toLowerCase d → x.ownerId ≠ u) →
      removeDevice toLowerCase st u d = (st, false)) := by
  have hcache : (removeDevice toLowerCase st u d).1.DEVICE_MAP_CACHE
      = st.DEVICE_MAP_CACHE.filter
          (fun x => !(decide (x.deviceId = normalize toLowerCase d) && decide (x.ownerId = u))) := by
    unfold removeDevice
    simp only
    split
    · rw [saveJSON_cache]
    · rfl
  have hlen : ∀ l : List DeviceLink,
      ((l.filter (fun x => !(decide (x.deviceId = normalize toLowerCase d)
          && decide (x.ownerId = u)))).length ≠ l.length ↔
        ∃ x ∈ l, x.deviceId = normalize toLowerCase d ∧ x.ownerId = u) := by
    intro l
    rw [Ne, List.filter_length_eq_length]
    constructor
    · intro h
      by_contra hno
      apply h
      intro a ha
      have : ¬ (a.deviceId = normalize toLowerCase d ∧ a.ownerId = u) :=
        fun hh => hno ⟨a, ha, hh⟩
      by_cases h1 : a.deviceId = normalize toLowerCase d <;>
        by_cases h2 : a.ownerId = u <;> simp_all
    · rintro ⟨x, hx, h1, h2⟩ hall
      have := hall x hx
      simp [h1, h2] at this
  have hret : (removeDevice toLowerCase st u d).2 = true ↔
      ∃ x ∈ st.DEVICE_MAP_CACHE, x.deviceId = normalize toLowerCase d ∧ x.ownerId = u := by
    rw [← hlen st.DEVICE_MAP_CACHE]
    unfold removeDevice
    simp only
    split <;> simp_all
  have hnone : (¬ ∃ x ∈ st.DEVICE_MAP_CACHE,
      x.deviceId = normalize toLowerCase d ∧ x.ownerId = u) →
      removeDevice toLowerCase st u d = (st, false) := by
    intro hno
    have hl := (hlen st.DEVICE_MAP_CACHE).not.2 hno
    have hf : st.DEVICE_MAP_CACHE.filter
        (fun x => !(decide (x.deviceId = normalize toLowerCase d)
          && decide (x.ownerId = u))) = st.DEVICE_MAP_CACHE := by
      rw [List.filter_eq_self]
      intro x hx
      have : ¬ (x.deviceId = normalize toLowerCase d ∧ x.ownerId = u) :=
        fun h => hno ⟨x, hx, h⟩
      by_cases h1 : x.deviceId = normalize toLowerCase d <;>
        by_cases h2 : x.ownerId = u <;> simp_all
    unfold removeDevice
    simp only [hf, ne_eq, not_true_eq_false, if_false]
  refine ⟨?_, ?_, ?_, hret, ?_, ?_⟩
  · rw [hcache]
    exact List.filter_sublist _
  · intro x hx
    rw [hcache, List.mem_filter] at hx
    rintro ⟨h1, h2⟩
    simp [h1, h2] at hx
  · intro x hx
    rw [hcache, List.count_filter]
    by_cases h1 : x.deviceId = normalize toLowerCase d <;>
      by_cases h2 : x.ownerId = u <;> simp_all
  · intro hfalse
    have hno : ¬ ∃ x ∈ st.DEVICE_MAP_CACHE,
        x.deviceId = normalize toLowerCase d ∧ x.ownerId = u := by
      intro h
      have := hret.2 h
      rw [hfalse] at this
      exact absurd this (by decide)
    rw [hnone hno]
  · intro hown
    exact hnone (fun ⟨x, hx, hid, ho⟩ => hown x hx hid ho)

/-- Witness of C21: the user `u1` tries to remove the device `cd`, which belongs to `u2`. -/
theorem C21_remove_strict_ownership_witness :
    (∀ x ∈ otherManager.DEVICE_MAP_CACHE,
      x.deviceId = normalize asciiLower (js " CD ") → x.ownerId ≠ js "u1") ∧
    removeDevice asciiLower otherManager (js "u1") (js " CD ") = (otherManager, false) :=
  have hown : ∀ x ∈ otherManager.DEVICE_MAP_CACHE,
      x.deviceId = normalize asciiLower (js " CD ") → x.ownerId ≠ js "u1" := by decide
  ⟨hown, (C21_remove_strict_ownership asciiLower otherManager (js "u1")
    (js " CD ")).2.2.2.2.2 hown⟩

/-! ### The two handlers on known devices -/

theorem handlers_agree_of_segments (db : DB) (tIns tUpd : Nat) (topic msgStr : JsString)
    (h3 : 3 ≤ (split slash topic).length) :
    ((∃ r ∈ db.devices, r.mac = (split slash topic).getD 1 []) →
      onMessage (some db) tIns tUpd topic msgStr = legacyOnMessage (some db) tUpd topic msgStr ∧
      (onMessage (some db) tIns tUpd topic msgStr).error = none) ∧
    (onMessage (some db) tIns tUpd topic msgStr = legacyOnMessage (some db) tUpd topic msgStr ↔
      ∃ r ∈ db.devices, r.mac = (split slash topic).getD 1 []) := by
  obtain ⟨p0, mac, type, rest, hsplit⟩ := exists_segments topic (by omega)
  rw [hsplit]
  simp only [List.getD_cons_succ, List.getD_cons_zero]
  have hleg := legacyOnMessage_segments db tUpd topic msgStr p0 mac type rest hsplit
  cases hsel : selectByMac db mac with
  | some r0 =>
    have hex : ∃ r ∈ db.devices, r.mac = mac := by
      refine ⟨r0, List.mem_of_find?_eq_some hsel, ?_⟩
      have := List.find?_some hsel
      simpa using this
    have heq : onMessage (some db) tIns tUpd topic msgStr
        = legacyOnMessage (some db) tUpd topic msgStr := by
      rw [hleg, onMessage_known db tIns tUpd topic msgStr p0 mac type rest r0 hsplit hsel]
    refine ⟨fun _ => ⟨heq, ?_⟩, fun _ => hex, fun _ => heq⟩
    rw [heq, hleg]
    split
    · rfl
    · split <;> rfl
  | none =>
    have hno : ¬ ∃ r ∈ db.devices, r.mac = mac :=
      fun ⟨r, hr, hm⟩ => (selectByMac_eq_none_iff db mac).1 hsel r hr hm
    refine ⟨fun h => absurd h hno, fun heq => ?_, fun h => absurd h hno⟩
    exfalso
    have hev := congrArg (fun o => o.events.length) heq
    rw [hleg, onMessage_unknown db tIns tUpd topic msgStr p0 mac type rest hsplit hsel] at hev
    by_cases hs : type = js "status"
    · simp [hs] at hev
    · by_cases hv : type = js "version"
      · subst hv
        simp [hs] at hev
      · simp [hs, hv] at hev

/-- C22: on a registry that already holds a row for the device id of the topic (segment 1),
the handler of fota_server and the handler of fota_server_next do the same for every topic and
payload: the same resulting registry, the same sequence of `device_update` events, and no
error.  They differ only when the id has no row: on a topic with at least 3 segments the two
outcomes are equal exactly when the id has a row (on a shorter topic both do nothing). -/
theorem C22_handlers_agree_on_known (db : DB) (tIns tUpd : Nat) (topic msgStr : JsString)
    (hknown : ∃ r ∈ db.devices, r.mac = (split slash topic).getD 1 []) :
    onMessage (some db) tIns tUpd topic msgStr = legacyOnMessage (some db) tUpd topic msgStr ∧
    (onMessage (some db) tIns tUpd topic msgStr).db
      = (legacyOnMessage (some db) tUpd topic msgStr).db ∧
    (onMessage (some db) tIns tUpd topic msgStr).events
      = (legacyOnMessage (some db) tUpd topic msgStr).events ∧
    (onMessage (some db) tIns tUpd topic msgStr).error = none ∧
    ∀ (db1 : DB) (topic1 : JsString), 3 ≤ (split slash topic1).length →
      (onMessage (some db1) tIns tUpd topic1 msgStr
          = legacyOnMessage (some db1) tUpd topic1 msgStr ↔
        ∃ r ∈ db1.devices, r.mac = (split slash topic1).getD 1 []) := by
  have hmain : onMessage (some db) tIns tUpd topic msgStr
      = legacyOnMessage (some db) tUpd topic msgStr ∧
      (onMessage (some db) tIns tUpd topic msgStr).error = none := by
    by_cases h3 : (split slash topic).length < 3
    · simp [onMessage, legacyOnMessage, h3]
    · exact (handlers_agree_of_segments db tIns tUpd topic msgStr (by omega)).1 hknown
  refine ⟨hmain.1, by rw [hmain.1], by rw [hmain.1], hmain.2, ?_⟩
  intro db1 topic1 h31
  exact (handlers_agree_of_segments db1 tIns tUpd topic1 msgStr h31).2

/-- Witness of C22: a status message of the known device `ab`. -/
theorem C22_handlers_agree_on_known_witness :
    (∃ r ∈ registryAb.devices, r.mac = (split slash (js "device/ab/status")).getD 1 []) ∧
    onMessage (some registryAb) 5 6 (js "device/ab/status") (js "online")
      = legacyOnMessage (some registryAb) 6 (js "device/ab/status") (js "online") :=
  have hex : ∃ r ∈ registryAb.devices,
      r.mac = (split slash (js "device/ab/status")).getD 1 [] :=
    ⟨rowAb, by simp [registryAb], by decide⟩
  ⟨hex, (C22_handlers_agree_on_known registryAb 5 6 (js "device/ab/status") (js "online")
    hex).1⟩

/-! ### Segment codes -/

theorem foldl_lor_eq (l : List (String × Nat)) :
    ∀ acc : Nat, l.foldl (fun a p => a ||| p.2) acc = acc ||| l.foldl (fun a p => a ||| p.2) 0 := by
  induction l with
  | nil => intro acc; simp
  | cons p l ih =>
    intro acc
    simp only [List.foldl_cons]
    rw [ih (acc ||| p.2), ih (0 ||| p.2), Nat.zero_or, Nat.lor_assoc]

theorem land_single_bit (c v : Nat) (hv : v = 0 ∨ ∃ i, v = 2 ^ i) (hsel : c &&& v ≠ 0) :
    c &&& v = v := by
  rcases hv with rfl | ⟨i, rfl⟩
  · simp at hsel
  · rw [Nat.and_two_pow] at hsel ⊢
    cases hb : c.testBit i with
    | false => simp [hb] at hsel
    | true => simp

/-- Or-ing the codes of the rules that a code selects gives the part of the code covered by
the rules. -/
theorem foldl_selected (c : Nat) (l : List (String × Nat))
    (hl : ∀ p ∈ l, p.2 = 0 ∨ ∃ i, p.2 = 2 ^ i) :
    ∀ acc : Nat, (l.filter (fun p => decide (c &&& p.2 ≠ 0))).foldl (fun a p => a ||| p.2) acc
      = acc ||| (c &&& l.foldl (fun a p => a ||| p.2) 0) := by
  induction l with
  | nil => intro acc; simp
  | cons p l ih =>
    intro acc
    have hp := hl p (by simp)
    have hrest : ∀ q ∈ l, q.2 = 0 ∨ ∃ i, q.2 = 2 ^ i := fun q hq => hl q (by simp [hq])
    have hall : (p :: l).foldl (fun a p => a ||| p.2) 0
        = p.2 ||| l.foldl (fun a p => a ||| p.2) 0 := by
      simp only [List.foldl_cons]
      rw [foldl_lor_eq l (0 ||| p.2), Nat.zero_or]
    rw [hall, Nat.and_or_distrib_left]
    by_cases hsel : c &&& p.2 ≠ 0
    · rw [List.filter_cons_of_pos (by simpa using hsel), List.foldl_cons, ih hrest,
        land_single_bit c p.2 hp hsel, Nat.lor_assoc]
    · have h0 : c &&& p.2 = 0 := by simpa using hsel
      rw [List.filter_cons_of_neg (by simpa using hsel), ih hrest, h0, Nat.zero_or]

/-- The loop of `GetCodeButton_Click` over the tags of rules is the or of their codes. -/
theorem foldl_tags (l : List (String × Nat)) (hl : ∀ p ∈ l, ruleOf p.1 = some p.2) :
    ∀ acc : Nat,
      (l.map (fun p => p.1)).foldl (fun codes segment =>
        match ruleOf segment with
        | some v => codes ||| v
        | none => codes) acc
      = l.foldl (fun a p => a ||| p.2) acc := by
  induction l with
  | nil => intro acc; rfl
  | cons p l ih =>
    intro acc
    have hp := hl p (by simp)
    simp only [List.map_cons, List.foldl_cons, hp]
    exact ih (fun q hq => hl q (by simp [hq])) _

theorem foldl_drop_zero (segs : List String) :
    ∀ acc : Nat,
      (segs.filter (fun s => decide (s ∉ zeroSegments))).foldl (fun codes segment =>
        match ruleOf segment with
        | some v => codes ||| v
        | none => codes) acc
      = segs.foldl (fun codes segment =>
        match ruleOf segment with
        | some v => codes ||| v
        | none => codes) acc := by
  induction segs with
  | nil => intro acc; rfl
  | cons s segs ih =>
    intro acc
    by_cases hs : s ∈ zeroSegments
    · have hz : ∀ t ∈ zeroSegments, ruleOf t = some 0 := by decide
      rw [List.filter_cons_of_neg (by simpa using hs), List.foldl_cons, hz s hs, ih]
      simp
    · rw [List.filter_cons_of_pos (by simpa using hs), List.foldl_cons, List.foldl_cons, ih]

/-- C24: the round trip of segment codes in WpfModuloTool.  For every code `c` (in particular
every 32-bit unsigned one), decoding `c` into the list of selected segments with
`DisplayHexCode` and encoding that list with the loop of `GetCodeButton_Click` yields
`c AND 0xFFFFF0`, a value below `2 ^ 32`; hence a code whose set bits all lie in `0xFFFFF0`
is reproduced exactly.  The four segments `0:1`, `0:2`, `0:4`, `0:8` are never selected by
decoding, and they never contribute to an encoded value: dropping them from any list of
selected segments leaves the encoded value as it is. -/
theorem C24_segment_code_round_trip (c : Nat) (segs : List String) :
    getCode (displayHexCode c) = c &&& 0xFFFFF0 ∧
    getCode (displayHexCode c) < 2 ^ 32 ∧
    (c &&& 0xFFFFF0 = c → getCode (displayHexCode c) = c) ∧
    (∀ s ∈ zeroSegments, s ∉ displayHexCode c) ∧
    getCode (segs.filter (fun s => decide (s ∉ zeroSegments))) = getCode segs := by
  have hround : getCode (displayHexCode c) = c &&& 0xFFFFF0 := by
    have hrules : ∀ p ∈ encodingRules, ruleOf p.1 = some p.2 := by decide
    have hbits : ∀ p ∈ encodingRules, p.2 = 0 ∨ ∃ i, p.2 = 2 ^ i := by
      have h : ∀ p ∈ encodingRules, p.2 = 0 ∨ ∃ i < 24, p.2 = 2 ^ i := by decide
      intro p hp
      rcases h p hp with h0 | ⟨i, _, hi⟩
      · exact Or.inl h0
      · exact Or.inr ⟨i, hi⟩
    have hall : encodingRules.foldl (fun a p => a ||| p.2) 0 = 0xFFFFF0 := by decide
    unfold getCode displayHexCode
    rw [foldl_tags _ (fun p hp => hrules p (List.mem_of_mem_filter hp)),
      foldl_selected c encodingRules hbits 0, hall, Nat.zero_or]
  refine ⟨hround, ?_, ?_, ?_, ?_⟩
  · rw [hround]
    exact Nat.lt_of_le_of_lt Nat.and_le_right (by decide)
  · intro h
    rw [hround, h]
  · intro s hs hmem
    have hzero : ∀ p ∈ encodingRules, p.1 ∈ zeroSegments → p.2 = 0 := by decide
    simp only [displayHexCode, List.mem_map, List.mem_filter] at hmem
    obtain ⟨p, ⟨hp, hsel⟩, rfl⟩ := hmem
    rw [hzero p hp hs] at hsel
    simp at hsel
  · exact foldl_drop_zero segs 0

/-- Witness of C24: the code `0x123450` has all its bits in `0xFFFFF0` and is reproduced. -/
theorem C24_segment_code_round_trip_witness :
    (0x123450 : Nat) &&& 0xFFFFF0 = 0x123450 ∧
    getCode (displayHexCode 0x123450) = 0x123450 :=
  have h : (0x123450 : Nat) &&& 0xFFFFF0 = 0x123450 := by decide
  ⟨h, (C24_segment_code_round_trip 0x123450 []).2.2.1 h⟩

/-! ### Quiz sessions -/

theorem sessionsGet_set (S : Sessions) (id : JsString) (s : Session) :
    sessionsGet (sessionsSet S id s) id = some s := by
  unfold sessionsGet sessionsSet
  by_cases hany : S.any (fun e => decide (e.1 = id)) = true
  · simp only [hany, if_true, List.find?_map]
    have hp : ((fun e : JsString × Session => decide (e.1 = id)) ∘
        fun e : JsString × Session => if e.1 = id then (id, s) else e)
        = fun e : JsString × Session => decide (e.1 = id) := by
      funext e
      by_cases h : e.1 = id <;> simp [h]
    rw [hp]
    obtain ⟨e, he, hid⟩ := List.any_eq_true.1 hany
    cases hf : List.find? (fun e : JsString × Session => decide (e.1 = id)) S with
    | none =>
      have := List.find?_eq_none.1 hf e he
      exact absurd hid this
    | some e1 =>
      have := List.find?_some hf
      simp at this
      simp [this]
  · have hnone : List.find? (fun e : JsString × Session => decide (e.1 = id)) S = none := by
      rw [List.find?_eq_none]
      intro e he hid
      exact hany (List.any_eq_true.2 ⟨e, he, hid⟩)
    simp [hany, List.find?_append, hnone]

theorem sessionsGet_delete (S : Sessions) (id : JsString) :
    sessionsGet (sessionsDelete S id) id = none := by
  unfold sessionsGet sessionsDelete
  have : List.find? (fun e : JsString × Session => decide (e.1 = id))
      (S.filter (fun e => decide (e.1 ≠ id))) = none := by
    rw [List.find?_eq_none]
    intro e he
    have := (List.mem_filter.1 he).2
    simpa using this
  rw [this]
  rfl

/-- One answer to a session that stands at question `k` of `qs` with score `c`, when the
bucket accepts the put of the history, if one is sent. -/
theorem quizAnswer_step (toUpperCase : JsString → JsString) (enabled : Bool) (S : Sessions)
    (req : AnswerRequest) (qs : List Question) (k c : Nat)
    (h : SessionAt S req.sessionId qs k c) (hput : enabled = true → req.putAccepted = true) :
    ∃ r hist, (quizAnswer toUpperCase enabled S req).2 = .answered r hist ∧
      r.currentScore = c + (if r.correct then 1 else 0) ∧
      (k + 1 < qs.length → r.finished = false ∧ hist = none ∧
        SessionAt (quizAnswer toUpperCase enabled S req).1 req.sessionId qs (k + 1) r.currentScore) ∧
      (¬ k + 1 < qs.length → r.finished = true ∧ r.finalScore = some r.currentScore ∧
        r.totalQuestions = some qs.length ∧
        sessionsGet (quizAnswer toUpperCase enabled S req).1 req.sessionId = none) := by
  obtain ⟨s, hget, hqs, hidx, hans, hk, hsc, hcount, _⟩ := h
  obtain ⟨q, hq⟩ : ∃ q, qs[k]? = some q := by
    cases hq : qs[k]? with
    | none =>
      rw [List.getElem?_eq_none_iff] at hq
      omega
    | some q => exact ⟨q, rfl⟩
  have hq1 : s.questions[s.currentQuestionIndex]? = some q := by rw [hqs, hidx, hq]
  by_cases hlt : k + 1 < qs.length
  · have hlt1 : s.currentQuestionIndex + 1 < s.questions.length := by rw [hqs, hidx]; exact hlt
    refine ⟨_, _, by simp only [quizAnswer, hget, hq1, hlt1, if_true]; rfl, ?_, ?_, ?_⟩
    · by_cases hc : some (toUpperCase req.answer) = q.correct <;> simp [hc, hsc]
    · intro _
      refine ⟨rfl, rfl, ?_⟩
      simp only [quizAnswer, hget, hq1, hlt1, if_true]
      refine ⟨_, sessionsGet_set _ _ _, hqs, by simp [hidx], by simp [hans], hlt, rfl, ?_, ?_⟩
      · by_cases hc : some (toUpperCase req.answer) = q.correct <;>
          simp [hc, List.filter_append, hcount]
      · have : s.score ≤ k := by
          rw [hcount, ← hans]
          exact List.length_filter_le _ _
        by_cases hc : some (toUpperCase req.answer) = q.correct <;> simp [hc, hidx] <;> omega
    · intro hn
      exact absurd hlt hn
  · have hlt1 : ¬ (s.currentQuestionIndex + 1 < s.questions.length) := by
      rw [hqs, hidx]; exact hlt
    have hp : (enabled && !req.putAccepted) = false := by
      cases he : enabled with
      | false => rfl
      | true => simp [hput he]
    by_cases hdev : truthy s.originalDeviceId = true
    · refine ⟨_, _, by simp only [quizAnswer, hget, hq1, hlt1, if_false, hdev, hp]; rfl,
        ?_, ?_, ?_⟩
      · by_cases hc : some (toUpperCase req.answer) = q.correct <;> simp [hc, hsc]
      · intro hn
        exact absurd hn hlt
      · intro _
        refine ⟨rfl, rfl, by rw [hqs], ?_⟩
        simp only [quizAnswer, hget, hq1, hlt1, if_false, hdev, hp]
        exact sessionsGet_delete _ _
    · refine ⟨_, _, by simp only [quizAnswer, hget, hq1, hlt1, if_false, hdev]; rfl,
        ?_, ?_, ?_⟩
      · by_cases hc : some (toUpperCase req.answer) = q.correct <;> simp [hc, hsc]
      · intro hn
        exact absurd hn hlt
      · intro _
        refine ⟨rfl, rfl, by rw [hqs], ?_⟩
        simp only [quizAnswer, hget, hq1, hlt1, if_false, hdev]
        exact sessionsGet_delete _ _

/-- Answers to a session that does not exist are answered with 404 and change nothing. -/
theorem runAnswers_absent (toUpperCase : JsString → JsString) (enabled : Bool) (sid : JsString)
    (reqs : List AnswerRequest) :
    ∀ S : Sessions, sessionsGet S sid = none → (∀ r ∈ reqs, r.sessionId = sid) →
      (runAnswers toUpperCase enabled S reqs).1 = S ∧
      ∀ o ∈ (runAnswers toUpperCase enabled S reqs).2, o = .notFound := by
  induction reqs with
  | nil => intro S _ _; simp [runAnswers]
  | cons req reqs ih =>
    intro S hS hreqs
    have hreq : req.sessionId = sid := hreqs req (by simp)
    have hstep : quizAnswer toUpperCase enabled S req = (S, .notFound) := by
      simp [quizAnswer, hreq, hS]
    obtain ⟨h1, h2⟩ := ih S hS (fun r hr => hreqs r (by simp [hr]))
    simp only [runAnswers, hstep, h1, List.mem_cons, true_and]
    rintro o (rfl | ho)
    · rfl
    · exact h2 o ho

/-- The invariant of a session over a sequence of answers to it, from any point of the
quiz, when the bucket accepts every put of a history. -/
theorem runAnswers_inv (toUpperCase : JsString → JsString) (enabled : Bool) (sid : JsString)
    (qs : List Question) (reqs : List AnswerRequest) :
    ∀ (S : Sessions) (k c : Nat), SessionAt S sid qs k c → (∀ r ∈ reqs, r.sessionId = sid) →
      (∀ r ∈ reqs, enabled = true → r.putAccepted = true) →
      (k + reqs.length < qs.length →
        SessionAt (runAnswers toUpperCase enabled S reqs).1 sid qs (k + reqs.length)
          (c + (runAnswers toUpperCase enabled S reqs).2.countP AnswerOutcome.isCorrect) ∧
        ∀ o ∈ (runAnswers toUpperCase enabled S reqs).2,
          ∃ r, o = .answered r none ∧ r.finished = false) ∧
      (k + reqs.length = qs.length →
        sessionsGet (runAnswers toUpperCase enabled S reqs).1 sid = none ∧
        ∃ r hist, (runAnswers toUpperCase enabled S reqs).2.getLast? = some (.answered r hist) ∧
          r.finished = true ∧
          r.finalScore
            = some (c + (runAnswers toUpperCase enabled S reqs).2.countP AnswerOutcome.isCorrect) ∧
          r.finalScore = some r.currentScore ∧
          r.totalQuestions = some qs.length) ∧
      (qs.length < k + reqs.length →
        sessionsGet (runAnswers toUpperCase enabled S reqs).1 sid = none) := by
  induction reqs with
  | nil =>
    intro S k c h _ _
    have hk : k < qs.length := by
      obtain ⟨s, _, _, _, _, hk, _⟩ := h
      exact hk
    refine ⟨fun _ => ⟨by simpa [runAnswers] using h, by simp [runAnswers]⟩, ?_, ?_⟩
    · intro he
      simp at he
      omega
    · intro he
      simp at he
      omega
  | cons req reqs ih =>
    intro S k c h hreqs hput
    have hk : k < qs.length := by
      obtain ⟨s, _, _, _, _, hk, _⟩ := h
      exact hk
    have hreq : req.sessionId = sid := hreqs req (by simp)
    have hrest : ∀ r ∈ reqs, r.sessionId = sid := fun r hr => hreqs r (by simp [hr])
    have hputrest : ∀ r ∈ reqs, enabled = true → r.putAccepted = true :=
      fun r hr => hput r (by simp [hr])
    obtain ⟨r, hist, hout, hscore, hlt, hge⟩ :=
      quizAnswer_step toUpperCase enabled S req qs k c (hreq ▸ h) (hput req (by simp))
    have hcorrect : AnswerOutcome.isCorrect (AnswerOutcome.answered r hist) = r.correct := rfl
    simp only [runAnswers, hout, List.length_cons, List.countP_cons, hcorrect]
    by_cases hnext : k + 1 < qs.length
    · obtain ⟨hfin, hnone, hat⟩ := hlt hnext
      rw [hreq] at hat
      obtain ⟨i1, i2, i3⟩ :=
        ih (quizAnswer toUpperCase enabled S req).1 (k + 1) r.currentScore hat hrest hputrest
      have hc : ∀ n : Nat, r.currentScore + n = c + (n + if r.correct = true then 1 else 0) := by
        intro n
        rw [hscore]
        omega
      refine ⟨?_, ?_, ?_⟩
      · intro hl
        obtain ⟨j1, j2⟩ := i1 (by omega)
        refine ⟨?_, ?_⟩
        · rw [← hc, show k + (reqs.length + 1) = k + 1 + reqs.length from by omega]
          exact j1
        · intro o ho
          rcases List.mem_cons.1 ho with rfl | ho
          · exact ⟨r, by rw [hnone], hfin⟩
          · exact j2 o ho
      · intro hl
        obtain ⟨j1, r1, hist1, j2, j3, j4, j5, j6⟩ := i2 (by omega)
        refine ⟨j1, r1, hist1, ?_, j3, ?_, j5, j6⟩
        · cases hrun : (runAnswers toUpperCase enabled (quizAnswer toUpperCase enabled S req).1 reqs).2 with
          | nil => rw [hrun] at j2; simp at j2
          | cons o os =>
            rw [hrun] at j2
            rw [List.getLast?_cons_cons]
            exact j2
        · rw [j4, hc]
      · intro hl
        exact i3 (by omega)
    · obtain ⟨hfin, hfinal, htotal, hgone⟩ := hge hnext
      rw [hreq] at hgone
      obtain ⟨a1, a2⟩ := runAnswers_absent toUpperCase enabled sid reqs
        (quizAnswer toUpperCase enabled S req).1 hgone hrest
      have hzero : (runAnswers toUpperCase enabled (quizAnswer toUpperCase enabled S req).1 reqs).2.countP
          AnswerOutcome.isCorrect = 0 := by
        rw [List.countP_eq_zero]
        intro o ho
        rw [a2 o ho]
        simp [AnswerOutcome.isCorrect]
      refine ⟨fun hl => absurd (by omega) hnext, ?_, ?_⟩
      · intro hl
        have hnil : reqs = [] := by
          cases reqs with
          | nil => rfl
          | cons x xs => simp at hl; omega
        subst hnil
        refine ⟨by simpa [runAnswers] using hgone, r, hist, by simp [runAnswers], hfin, ?_,
          hfinal, htotal⟩
        rw [hfinal, hscore]
        simp [runAnswers]
      · intro _
        rw [a1]
        exact hgone

theorem sessionsSet_value (S : Sessions) (id : JsString) (s : Session) :
    ∀ e ∈ sessionsSet S id s, e.1 = id → e = (id, s) := by
  intro e he hid
  unfold sessionsSet at he
  by_cases hany : S.any (fun e => decide (e.1 = id)) = true
  · simp only [hany, if_true, List.mem_map] at he
    obtain ⟨e0, _, rfl⟩ := he
    by_cases h0 : e0.1 = id
    · simp [h0]
    · simp [h0] at hid
  · simp only [hany, Bool.false_eq_true, if_false, List.mem_append, List.mem_singleton] at he
    rcases he with he | rfl
    · exact absurd (List.any_eq_true.2 ⟨e, he, by simpa using hid⟩) hany
    · rfl

theorem find?_filter_of_imp {α : Type} (p q : α → Bool) (l : List α)
    (h : ∀ e ∈ l, p e = true → q e = true) :
    (l.filter q).find? p = l.find? p := by
  induction l with
  | nil => rfl
  | cons x xs ih =>
    have hxs : ∀ e ∈ xs, p e = true → q e = true := fun e he => h e (by simp [he])
    by_cases hq : q x = true
    · rw [List.filter_cons_of_pos hq]
      simp only [List.find?_cons]
      rw [ih hxs]
    · have hp : p x = false := by
        cases hpx : p x with
        | false => rfl
        | true => exact absurd (h x (by simp) hpx) hq
      rw [List.filter_cons_of_neg hq, ih hxs]
      simp [List.find?_cons, hp]

/-- The cleanup of old sessions keeps a session that was set less than an hour ago. -/
theorem sessionsGet_cleanup (S : Sessions) (id : JsString) (s : Session) (now : Nat)
    (hrecent : ¬ ((now : Int) - (s.created : Int) > 3600000)) :
    sessionsGet
      (if (sessionsSet S id s).length > 200 then
        (sessionsSet S id s).filter
          (fun e => !(decide ((now : Int) - (e.2.created : Int) > 3600000)))
      else sessionsSet S id s) id = some s := by
  split
  · unfold sessionsGet
    rw [find?_filter_of_imp]
    · exact sessionsGet_set _ _ _
    · intro e he hid
      have := sessionsSet_value _ _ _ e he (by simpa using hid)
      rw [this]
      simpa using hrecent
  · exact sessionsGet_set _ _ _

/-- A start request that is answered leaves a fresh session for a non-empty quiz, provided the
two clock readings of the route are not more than an hour apart. -/
theorem quizStart_fresh (toLowerCase : JsString → JsString) (defaultQuestions : List Question)
    (enabled : Bool) (bucket : JsString → Option (List Question)) (S0 : Sessions)
    (bodyDeviceId : Option JsString) (sid : JsString) (created now : Nat)
    (resp : StartResponse)
    (hstart : (quizStart toLowerCase defaultQuestions enabled bucket S0 bodyDeviceId sid
      created now).2 = .ok resp)
    (hrecent : ¬ ((now : Int) - (created : Int) > 3600000)) :
    ∃ qs : List Question, qs ≠ [] ∧ resp.total = qs.length ∧ resp.sessionId = sid ∧
      SessionAt (quizStart toLowerCase defaultQuestions enabled bucket S0 bodyDeviceId sid
        created now).1 sid qs 0 0 := by
  unfold quizStart at hstart ⊢
  simp only at hstart ⊢
  split at hstart
  · simp at hstart
  · rename_i qs hloaded
    cases qs with
    | nil => simp at hstart
    | cons q qs =>
      simp only at hstart ⊢
      have hresp : resp.total = (q :: qs).length ∧ resp.sessionId = sid := by
        have := Except.ok.inj hstart
        rw [← this]
        exact ⟨rfl, rfl⟩
      refine ⟨q :: qs, by simp, hresp.1, hresp.2, ?_⟩
      refine ⟨{ score := 0, currentQuestionIndex := 0, questions := q :: qs,
                originalDeviceId :=
                  if truthy bodyDeviceId then
                    some (toLowerCase (trim (bodyDeviceId.getD [])))
                  else none,
                created := created, answers := [] },
        ?_, rfl, rfl, rfl, by simp, rfl, rfl, by simp⟩
      exact sessionsGet_cleanup S0 sid _ now hrecent

/-- The invariant of a quiz session when every put of a history is accepted.  Let
`POST /api/quiz/start` answer with a response `resp` (which it does only for a non-empty list
of questions) and let `n = resp.total` be the length of that list; let a sequence of string
answers be submitted to `POST /api/quiz/answer` for the session, handled one after the other,
and let the bucket accept the put of each of them when storage is enabled.  As long as fewer
than `n` answers have been submitted the session exists, its `currentQuestionIndex` equals the
number of recorded answers and is below `n`, its score equals the number of recorded answers
marked correct (which is the number of responses that reported `correct`) and so is at most
the index, and every response so far said `finished = false`.  The session is deleted exactly
on the `n`-th answer, whose response says `finished = true`, `finalScore` = the score,
`totalQuestions = n`; it stays deleted afterwards.  The two clock readings of the start route
are taken to be not more than an hour apart, so that the cleanup of old sessions does not
remove the new one. -/
theorem quiz_session_invariant_of_accepted_puts (toLowerCase toUpperCase : JsString → JsString)
    (defaultQuestions : List Question) (enabled : Bool)
    (bucket : JsString → Option (List Question)) (S0 : Sessions)
    (bodyDeviceId : Option JsString) (sid : JsString) (created now : Nat)
    (resp : StartResponse) (reqs : List AnswerRequest)
    (hstart : (quizStart toLowerCase defaultQuestions enabled bucket S0 bodyDeviceId sid
      created now).2 = .ok resp)
    (hrecent : ¬ ((now : Int) - (created : Int) > 3600000))
    (hreqs : ∀ r ∈ reqs, r.sessionId = sid)
    (hput : ∀ r ∈ reqs, enabled = true → r.putAccepted = true) :
    ∃ qs : List Question, qs ≠ [] ∧ resp.total = qs.length ∧
      (reqs.length < qs.length →
        SessionAt (runAnswers toUpperCase enabled (quizStart toLowerCase defaultQuestions
            enabled bucket S0 bodyDeviceId sid created now).1 reqs).1 sid qs reqs.length
          ((runAnswers toUpperCase enabled (quizStart toLowerCase defaultQuestions enabled
            bucket S0 bodyDeviceId sid created now).1 reqs).2.countP AnswerOutcome.isCorrect) ∧
        ∀ o ∈ (runAnswers toUpperCase enabled (quizStart toLowerCase defaultQuestions enabled
            bucket S0 bodyDeviceId sid created now).1 reqs).2,
          ∃ r, o = .answered r none ∧ r.finished = false) ∧
      (reqs.length = qs.length →
        sessionsGet (runAnswers toUpperCase enabled (quizStart toLowerCase defaultQuestions
            enabled bucket S0 bodyDeviceId sid created now).1 reqs).1 sid = none ∧
        ∃ r hist, (runAnswers toUpperCase enabled (quizStart toLowerCase defaultQuestions
            enabled bucket S0 bodyDeviceId sid created now).1 reqs).2.getLast?
              = some (.answered r hist) ∧
          r.finished = true ∧
          r.finalScore = some ((runAnswers toUpperCase enabled (quizStart toLowerCase
            defaultQuestions enabled bucket S0 bodyDeviceId sid created now).1 reqs).2.countP
              AnswerOutcome.isCorrect) ∧
          r.finalScore = some r.currentScore ∧
          r.totalQuestions = some resp.total) ∧
      (qs.length < reqs.length →
        sessionsGet (runAnswers toUpperCase enabled (quizStart toLowerCase defaultQuestions
            enabled bucket S0 bodyDeviceId sid created now).1 reqs).1 sid = none) := by
  obtain ⟨qs, hne, htotal, _, hat⟩ := quizStart_fresh toLowerCase defaultQuestions enabled
    bucket S0 bodyDeviceId sid created now resp hstart hrecent
  obtain ⟨i1, i2, i3⟩ := runAnswers_inv toUpperCase enabled sid qs reqs _ 0 0 hat hreqs hput
  simp only [Nat.zero_add] at i1 i2 i3
  refine ⟨qs, hne, htotal, i1, ?_, i3⟩
  intro hl
  rw [htotal]
  exact i2 hl

/-- The sample quiz of two questions is started by the device `ab` with storage enabled and
answered twice, both puts accepted: the session is gone after the second answer, which
reports the final score 1 of 2. -/
theorem quiz_session_invariant_of_accepted_puts_example :
    (quizStart asciiLower [] true quizBucketAb [] (some (js "ab")) (js "s1") 10 10).2
      = .ok sampleStartResponse ∧
    sessionsGet (runAnswers asciiUpper true sessionsOfAb sampleAnswers).1 (js "s1") = none ∧
    ∃ r hist, (runAnswers asciiUpper true sessionsOfAb sampleAnswers).2.getLast?
        = some (.answered r hist) ∧
      r.finished = true ∧ r.finalScore = some r.currentScore ∧ r.totalQuestions = some 2 := by
  have hstart : (quizStart asciiLower [] true quizBucketAb [] (some (js "ab")) (js "s1")
      10 10).2 = .ok sampleStartResponse := by decide
  obtain ⟨qs, _, htotal, _, hn, _⟩ := quiz_session_invariant_of_accepted_puts asciiLower
    asciiUpper [] true quizBucketAb [] (some (js "ab")) (js "s1") 10 10 sampleStartResponse
    sampleAnswers hstart (by decide) (by decide) (by decide)
  have hlen : sampleAnswers.length = qs.length := by
    rw [← htotal]
    rfl
  obtain ⟨hgone, r, hist, hlast, hfin, _, hfinal, htq⟩ := hn hlen
  exact ⟨hstart, hgone, r, hist, hlast, hfin, hfinal, htq⟩

/-- C23, the run on which the code leaves the invariant: the device `ab` starts its custom
quiz of `n = 2` questions with storage enabled (session `s1`) and answers `b`, `b`, `a`; the
bucket rejects the put that `db.addHistory` sends during the second answer.  The first answer
is answered with `finished = false`.  The second answer, the `n`-th, is not answered: the
route throws the error of the put, after `currentQuestionIndex++` and before
`sessions.delete`, so the session is still in the map, with `currentQuestionIndex = 2 = n`
and two recorded answers, although the claim has the session deleted exactly on the `n`-th
answer with a response `finished = true` and has the index below `n` while the session
exists.  The third answer looks up `questionsList[2]`, outside the list, and throws a
`TypeError`; the session stays as it was.  With the same answers and every put accepted the
session is deleted on the second answer. -/
theorem C23_history_put_rejected :
    (quizStart asciiLower [] true quizBucketAb [] (some (js "ab")) (js "s1") 10 10).2
      = .ok sampleStartResponse ∧
    sampleStartResponse.total = 2 ∧
    (runAnswers asciiUpper true sessionsOfAb (answersPutRejected.take 2)).2
      = [.answered { correct := true, correctOption := some (js "B"), currentScore := 1,
                     nextQuestion := some { index := 1, id := js "q2", text := js "2 + 2 ?",
                                            options := [js "A", js "B"] },
                     finished := false, finalScore := none, totalQuestions := none } none,
         .thrown .putRejected] ∧
    sessionsGet (runAnswers asciiUpper true sessionsOfAb (answersPutRejected.take 2)).1 (js "s1")
      = some { score := 1, currentQuestionIndex := 2, questions := sampleQuiz,
               originalDeviceId := some (js "ab"), created := 10,
               answers := [{ questionId := js "q1", userAnswer := js "b", isCorrect := true },
                           { questionId := js "q2", userAnswer := js "b",
                             isCorrect := false }] } ∧
    (runAnswers asciiUpper true sessionsOfAb answersPutRejected).2.getLast?
      = some (.thrown .typeError) ∧
    (runAnswers asciiUpper true sessionsOfAb answersPutRejected).1
      = (runAnswers asciiUpper true sessionsOfAb (answersPutRejected.take 2)).1 ∧
    sessionsGet (runAnswers asciiUpper true sessionsOfAb sampleAnswers).1 (js "s1") = none ∧
    (runAnswers asciiUpper true sessionsOfAb sampleAnswers).2.getLast?
      = some (.answered { correct := false, correctOption := some (js "A"), currentScore := 1,
                          nextQuestion := none, finished := true, finalScore := some 1,
                          totalQuestions := some 2 }
          (some (js "ab", { date := 30, score := 1, total := 2, durationSeconds := 0 }))) := by
  decide

end Xiaozhi



